import Mathlib

/-!
Shallow embedding of the `core_sim` crate of the cpuex2022-7 simulator
(dialect v1, i.e. the `cfg(not(feature = "isa_2nd"))` build, with the
`stat` and `typed_memory` features on and `time_predict` off except for
the components — branch predictor, cache — that the claims observe).

Machine integers (`u32`, `usize`) are modelled as `Nat` with explicit
`% 2^32` wherever the source wraps.  `f32` values are modelled by their
raw 32-bit patterns; every float-valued operation and float comparison
the CPU performs is a field of a `FloatModel` parameter, matching the
source's pluggable FPU backend.  Display/statistics code that no claim
observes (instruction counters, register read/write counters, memory
region statistics, trace strings) is not modelled.
-/

namespace CoreSim

/-- `2^32`, the modulus of `u32` arithmetic. -/
def U32M : Nat := 4294967296

/-- Wrap a natural into `u32` range (Rust wrapping semantics). -/
def wrap32 (n : Nat) : Nat := n % U32M

/-- `bin.rs bit_range`: mask with ones in bit positions `s..=e`.
The source computes `large.wrapping_sub(1 << s)` with `large = 0` when
`e = 31`; wrapping subtraction is modelled by `+ 2^32` then `% 2^32`. -/
def bit_range (s e : Nat) : Nat :=
  wrap32 ((if e ≠ 31 then 1 <<< (e + 1) else 0) + U32M - (1 <<< s))

/-- `bin.rs bit_range_lower`: ones in bit positions `0..=i`. -/
def bit_range_lower (i : Nat) : Nat :=
  wrap32 ((if i ≠ 31 then 1 <<< (i + 1) else 0) + U32M - 1)

/-- `bin.rs mask`. -/
def mask (bin s e : Nat) : Nat := bin &&& bit_range s e

/-- `bin.rs mask_lower`. -/
def mask_lower (bin i : Nat) : Nat := bin &&& bit_range_lower i

/-- `bin.rs extract`. -/
def extract (bin s e : Nat) : Nat := mask bin s e >>> s

/-- `bin.rs at` (renamed: `at` is a Lean keyword). -/
def bit_at (bin i : Nat) : Nat := (bin >>> i) &&& 1

/-- `bin.rs sign_extend::<BIT>(sign, imm)`. -/
def sign_extend (bit sign imm : Nat) : Nat :=
  if sign ≠ 0 then bit_range bit 31 ||| imm else imm

/-- Reinterpret a `u32` bit pattern as a signed `i32` value. -/
def toI32 (n : Nat) : Int :=
  if n < 2147483648 then (n : Int) else (n : Int) - (U32M : Int)

/-! ## Runtime type tags (`ty.rs`) -/

/-- `ty.rs Ty`. -/
inductive Ty : Type
  | I32
  | Usize
  | I32OrUsize
  | F32
  | Unknown
deriving DecidableEq, Repr

/-- `ty.rs impl PartialOrd for Ty`, `partial_cmp`: `a < b` iff `b` is
more precise than `a`; `F32` and the integer branch are incomparable,
as are `I32` and `Usize`. -/
def Ty.pcmp (a b : Ty) : Option Ordering :=
  if a = b then some Ordering.eq
  else
    match a, b with
    | .I32, .I32OrUsize => some Ordering.gt
    | .Usize, .I32OrUsize => some Ordering.gt
    | .I32OrUsize, .I32 => some Ordering.lt
    | .I32OrUsize, .Usize => some Ordering.lt
    | _, .Unknown => some Ordering.gt
    | .Unknown, _ => some Ordering.lt
    | _, _ => none

/-- `ty.rs TypedU32`. -/
structure TypedU32 : Type where
  ty : Ty
  value : Nat
deriving DecidableEq, Repr

/-! ## Memory (`memory.rs`)

The source stores a byte vector (`inner: Vec<u8>`), accessed only at
word granularity through `get_raw_addr` / `to_le_bytes`; the embedding
keeps the byte array as a function from byte index to byte value.
The spy registry (`on_read` / `on_write` maps keyed by word address)
is modelled as two membership predicates. -/

def RAM_BYTE_SIZE : Nat := 1000000

/-- `common.rs SpyWatchResultKind`. -/
inductive SpyWatchResultKind : Type
  | Read
  | Write (before after : TypedU32)

/-- `common.rs SpyResult` (the target always being `SpyKind::Memory`
with the spied word address on the paths the core takes). -/
structure SpyResult : Type where
  kind : SpyWatchResultKind
  addr : Nat

/-- `memory.rs Memory<RAM_BYTE_SIZE>` (typed memory enabled). -/
structure Memory : Type where
  inner : Nat → Nat
  instr_begin : Nat
  instr_end : Nat
  ty : Nat → Ty
  spy_read : Nat → Bool
  spy_write : Nat → Bool

/-- `memory.rs MemoryAccessError`. -/
inductive MemoryAccessError : Type
  | OutOfBounds (accessed_address : Nat)
  | PcOutOfBounds (pc_address : Nat)
  | ViolateTransmutation (expected attempt : Ty)
deriving DecidableEq, Repr

/-- The `bounds_check!` macro condition: the byte offset `addr << 2` is
outside RAM or inside the instruction range (`Range::contains`). -/
def Memory.bounds_fail (m : Memory) (addr : Nat) : Bool :=
  decide (RAM_BYTE_SIZE ≤ addr <<< 2) ||
    (decide (m.instr_begin ≤ addr <<< 2) && decide (addr <<< 2 < m.instr_end))

/-- `memory.rs Memory::get_raw_addr`: `u32::from_le_bytes` of the four
bytes at byte index `addr`. -/
def Memory.get_raw_addr (m : Memory) (addr : Nat) : Nat :=
  m.inner addr + (m.inner (addr + 1)) <<< 8 + (m.inner (addr + 2)) <<< 16 +
    (m.inner (addr + 3)) <<< 24

/-- `memory.rs Memory::unify` (feature `typed_memory`): promote or keep
the stored tag, or fail with `ViolateTransmutation`.  Returns the
resulting type together with the (possibly tag-updated) memory. -/
def Memory.unify (m : Memory) (addr : Nat) (attempt : Ty) :
    Except MemoryAccessError (Ty × Memory) :=
  let ty := m.ty addr
  if ty.pcmp attempt = some Ordering.lt then
    Except.ok (attempt, { m with ty := fun i => if i = addr then attempt else m.ty i })
  else if ty.pcmp attempt = some Ordering.gt ∨ ty.pcmp attempt = some Ordering.eq then
    Except.ok (ty, m)
  else
    Except.error (MemoryAccessError.ViolateTransmutation ty attempt)

/-- `type_check!(self[addr]: ?)` unwraps `unify(addr, Unknown)`, which
never fails (`Unknown` is the least tag); the fallback branch is
unreachable (see `unify_unknown`). -/
def Memory.type_check_any (m : Memory) (addr : Nat) : Ty :=
  match m.unify addr Ty.Unknown with
  | Except.ok (t, _) => t
  | Except.error _ => Ty.Unknown

/-- `memory.rs Memory::on_read`: a matching read spy overwrites the
out-parameter. -/
def Memory.on_read (m : Memory) (addr : Nat) (spied : Option SpyResult) :
    Option SpyResult :=
  if m.spy_read addr then
    some { kind := SpyWatchResultKind.Read, addr := addr }
  else spied

/-- `memory.rs Memory::on_write`: a matching write spy records the word
being overwritten (with its current tag) and the incoming value. -/
def Memory.on_write (m : Memory) (addr : Nat) (val : TypedU32)
    (spied : Option SpyResult) : Option SpyResult :=
  if m.spy_write addr then
    some { kind := SpyWatchResultKind.Write
            { ty := m.ty addr, value := m.get_raw_addr (addr <<< 2) } val,
           addr := addr }
  else spied

/-- `u32::to_le_bytes`: byte `k` of `v`. -/
def le_byte (v k : Nat) : Nat := (v >>> (8 * k)) % 256

/-- Write the four little-endian bytes of `val` at byte index `base`. -/
def write_word (f : Nat → Nat) (base val : Nat) : Nat → Nat :=
  fun i =>
    if i = base then le_byte val 0
    else if i = base + 1 then le_byte val 1
    else if i = base + 2 then le_byte val 2
    else if i = base + 3 then le_byte val 3
    else f i

/-- `memory.rs Memory::get`. -/
def Memory.get (m : Memory) (addr : Nat) (spied : Option SpyResult) :
    Except MemoryAccessError (TypedU32 × Memory × Option SpyResult) :=
  if m.bounds_fail addr then
    Except.error (MemoryAccessError.OutOfBounds addr)
  else
    let ty := m.type_check_any addr
    let spied := m.on_read addr spied
    Except.ok ({ ty := ty, value := m.get_raw_addr (addr <<< 2) }, m, spied)

/-- `memory.rs Memory::get_i`: an integer-path read, requesting
`I32OrUsize`. -/
def Memory.get_i (m : Memory) (addr : Nat) (spied : Option SpyResult) :
    Except MemoryAccessError (TypedU32 × Memory × Option SpyResult) :=
  if m.bounds_fail addr then
    Except.error (MemoryAccessError.OutOfBounds addr)
  else
    match m.unify addr Ty.I32OrUsize with
    | Except.error e => Except.error e
    | Except.ok (ty, m) =>
      let spied := m.on_read addr spied
      Except.ok ({ ty := ty, value := m.get_raw_addr (addr <<< 2) }, m, spied)

/-- `memory.rs Memory::get_f`: a float-path read, requesting `F32`;
returns the raw bit pattern (`f32::from_le_bytes`). -/
def Memory.get_f (m : Memory) (addr : Nat) (spied : Option SpyResult) :
    Except MemoryAccessError (Nat × Memory × Option SpyResult) :=
  if m.bounds_fail addr then
    Except.error (MemoryAccessError.OutOfBounds addr)
  else
    match m.unify addr Ty.F32 with
    | Except.error e => Except.error e
    | Except.ok (_, m) =>
      let spied := m.on_read addr spied
      Except.ok (m.get_raw_addr (addr <<< 2), m, spied)

/-- `memory.rs Memory::get_from_pc`. -/
def Memory.get_from_pc (m : Memory) (pc : Nat) : Except MemoryAccessError Nat :=
  if m.instr_begin ≤ pc ∧ pc < m.instr_end then
    Except.ok (m.get_raw_addr pc)
  else
    Except.error (MemoryAccessError.PcOutOfBounds pc)

/-- `memory.rs Memory::set`: integer-path write; resets the tag to
`I32OrUsize` and stores the little-endian bytes of `val`. -/
def Memory.set (m : Memory) (addr val : Nat) (spied : Option SpyResult) :
    Except MemoryAccessError (Memory × Option SpyResult) :=
  if m.bounds_fail addr then
    Except.error (MemoryAccessError.OutOfBounds addr)
  else
    let spied := m.on_write addr { ty := Ty.I32OrUsize, value := val } spied
    Except.ok ({ m with
                  ty := fun i => if i = addr then Ty.I32OrUsize else m.ty i,
                  inner := write_word m.inner (addr <<< 2) val }, spied)

/-- `memory.rs Memory::set_f`: float-path write of the bit pattern
`val` (`f32::to_le_bytes` = bytes of `to_bits`); resets the tag to
`F32`. -/
def Memory.set_f (m : Memory) (addr val : Nat) (spied : Option SpyResult) :
    Except MemoryAccessError (Memory × Option SpyResult) :=
  if m.bounds_fail addr then
    Except.error (MemoryAccessError.OutOfBounds addr)
  else
    let spied := m.on_write addr { ty := Ty.F32, value := val } spied
    Except.ok ({ m with
                  ty := fun i => if i = addr then Ty.F32 else m.ty i,
                  inner := write_word m.inner (addr <<< 2) val }, spied)

/-- `unify` with `Unknown` always succeeds with the stored tag and does
not change the memory (justifying the `.unwrap()` in
`type_check!(self[addr]: ?)`). -/
theorem unify_unknown (m : Memory) (addr : Nat) :
    m.unify addr Ty.Unknown = Except.ok (m.ty addr, m) := by
  unfold Memory.unify
  cases h : (m.ty addr).pcmp Ty.Unknown with
  | none =>
    exfalso
    cases ht : m.ty addr <;> simp [Ty.pcmp, ht] at h
  | some o =>
    cases ht : m.ty addr <;> simp [Ty.pcmp, ht] at h <;> simp [ht, Ty.pcmp, ← h]

theorem type_check_any_eq (m : Memory) (addr : Nat) :
    m.type_check_any addr = m.ty addr := by
  unfold Memory.type_check_any
  rw [unify_unknown]

/-! ## Instruction cache (`cache.rs`) -/

def CACHE_NUM_LINES : Nat := 16384

/-- `cache.rs Cache<CACHE_NUM_LINES>`: one stored tag per line,
initialised to zero. -/
structure Cache : Type where
  inner : Nat → Nat

def Cache.new : Cache := { inner := fun _ => 0 }

/-- `cache.rs Cache::access_cache`: returns hit/miss and the cache
after the access (on a miss the line's tag is replaced). -/
def Cache.access_cache (c : Cache) (addr : Nat) : Bool × Cache :=
  let line := (addr >>> 2) % CACHE_NUM_LINES
  let tag := (addr >>> 2) / CACHE_NUM_LINES
  if c.inner line ≠ tag then
    (false, { inner := fun i => if i = line then tag else c.inner i })
  else
    (true, c)

/-! ## Branch predictor (`branch_predictor.rs`) and branch statistics -/

def NUM_COUNTERS : Nat := 64

/-- `branch_predictor.rs SaturatingCounter`. -/
inductive SaturatingCounter : Type
  | StronglyUntaken
  | WeaklyUntaken
  | WeaklyTaken
  | StronglyTaken
deriving DecidableEq, Repr

def SaturatingCounter.next : SaturatingCounter → SaturatingCounter
  | .StronglyUntaken => .WeaklyUntaken
  | .WeaklyUntaken => .WeaklyTaken
  | .WeaklyTaken => .StronglyTaken
  | .StronglyTaken => .StronglyTaken

def SaturatingCounter.prev : SaturatingCounter → SaturatingCounter
  | .StronglyUntaken => .StronglyUntaken
  | .WeaklyUntaken => .StronglyUntaken
  | .WeaklyTaken => .WeaklyUntaken
  | .StronglyTaken => .WeaklyTaken

/-- `branch_predictor.rs BranchPredictor<NUM_COUNTERS>`. -/
structure BranchPredictor : Type where
  inner : Nat → SaturatingCounter

def BranchPredictor.new : BranchPredictor :=
  { inner := fun _ => SaturatingCounter.WeaklyTaken }

/-- `BranchPredictor::predict`: taken iff the counter at
`addr % NUM_COUNTERS` is in a taken state. -/
def BranchPredictor.predict (bp : BranchPredictor) (addr : Nat) : Bool :=
  let counter_state := bp.inner (addr % NUM_COUNTERS)
  counter_state = SaturatingCounter.StronglyTaken ||
    counter_state = SaturatingCounter.WeaklyTaken

/-- `BranchPredictor::update_state`. -/
def BranchPredictor.update_state (bp : BranchPredictor) (addr : Nat)
    (result : Bool) : BranchPredictor :=
  { inner := fun i =>
      if i = addr % NUM_COUNTERS then
        if result then (bp.inner (addr % NUM_COUNTERS)).next
        else (bp.inner (addr % NUM_COUNTERS)).prev
      else bp.inner i }

/-- `cpu.rs stat::BranchStat` (feature `stat`). -/
structure BranchStat : Type where
  taken_pred_taken_count : Nat
  taken_pred_untaken_count : Nat
  untaken_pred_taken_count : Nat
  untaken_pred_untaken_count : Nat
deriving DecidableEq, Repr

/-- `BranchStat::update_stat`. -/
def BranchStat.update_stat (s : BranchStat) (predicted actual : Bool) :
    BranchStat :=
  if predicted then
    if actual then { s with taken_pred_taken_count := s.taken_pred_taken_count + 1 }
    else { s with untaken_pred_taken_count := s.untaken_pred_taken_count + 1 }
  else if actual then
    { s with taken_pred_untaken_count := s.taken_pred_untaken_count + 1 }
  else
    { s with untaken_pred_untaken_count := s.untaken_pred_untaken_count + 1 }

/-- `cpu.rs stat::CacheStat`. -/
structure CacheStat : Type where
  hit_count : Nat
  miss_count : Nat
deriving DecidableEq, Repr

/-- `CacheStat::update_stat`. -/
def CacheStat.update_stat (s : CacheStat) (result : Bool) : CacheStat :=
  if result then { s with hit_count := s.hit_count + 1 }
  else { s with miss_count := s.miss_count + 1 }

/-! ## Register file (`reg_file.rs`)

Register identifiers (`RegId` / `FRegId`, 5-bit in dialect v1) are
modelled as `Nat`; the `TryFrom<u32>` conversions in the decoder cannot
fail there because every register field is a 5-bit extract.  The float
array holds raw `f32` bit patterns. -/

structure RegFile : Type where
  inner : Nat → Nat
  inner_f : Nat → Nat

/-- `RegFile::get`. -/
def RegFile.get (rf : RegFile) (id : Nat) : Nat := rf.inner id

/-- `RegFile::get_f`. -/
def RegFile.get_f (rf : RegFile) (id : Nat) : Nat := rf.inner_f id

/-- `RegFile::set`: writes to index 0 are discarded. -/
def RegFile.set (rf : RegFile) (id val : Nat) : RegFile :=
  if id ≠ 0 then { rf with inner := fun i => if i = id then val else rf.inner i }
  else rf

/-- `RegFile::set_f`: writes to index 0 are discarded. -/
def RegFile.set_f (rf : RegFile) (id val : Nat) : RegFile :=
  if id ≠ 0 then { rf with inner_f := fun i => if i = id then val else rf.inner_f i }
  else rf

/-! ## Instructions (`instr.rs`, dialect v1)

The Rust `Instr<IR, IW, FR, FW>` is generic so the same shape serves
before register fetch (ids) and after (values); both instantiations are
`Nat`-valued here, so a single non-generic type is used.  The
`isa_2nd`-only variants (`P` compare-immediate branches, `G` fused
multiply-adds, the extra `H` operations) are `unreachable!()` in the v1
build and are omitted; the v2 `P` execute arm is modelled separately as
`exec_p_2nd`.  `IOInstr` is named `IoInstr` and the `Instr::IO`
constructor `Io`. -/

inductive RInstr : Type
  | Add | Sub | Xor | Or | And | Sll | Sra | Slt
deriving DecidableEq, Repr

inductive IInstr : Type
  | Addi | Xori | Ori | Andi | Slli | Slti | Lw | Jalr
deriving DecidableEq, Repr

inductive SInstr : Type
  | Sw
deriving DecidableEq, Repr

inductive BInstr : Type
  | Beq | Bne | Blt | Bge
deriving DecidableEq, Repr

inductive JInstr : Type
  | Jal
deriving DecidableEq, Repr

inductive EInstr : Type
  | Fadd | Fsub | Fmul | Fdiv | Fsgnj | Fsgnjn | Fsgnjx
deriving DecidableEq, Repr

inductive HInstr : Type
  | Fsqrt | Fhalf | Ffloor
deriving DecidableEq, Repr

inductive KInstr : Type
  | Flt
deriving DecidableEq, Repr

inductive XInstr : Type
  | Fitof
deriving DecidableEq, Repr

inductive YInstr : Type
  | Fiszero | Fispos | Fisneg | Fftoi
deriving DecidableEq, Repr

inductive WInstr : Type
  | Fblt | Fbge
deriving DecidableEq, Repr

inductive VInstr : Type
  | Fbeqz | Fbnez
deriving DecidableEq, Repr

inductive IoInstr : Type
  | Outb (rs : Nat)
  | Inw (rd : Nat)
  | Finw (rd : Nat)
deriving DecidableEq, Repr

inductive FInstr : Type
  | E (instr : EInstr) (rd rs1 rs2 : Nat)
  | H (instr : HInstr) (rd rs1 : Nat)
  | K (instr : KInstr) (rd rs1 rs2 : Nat)
  | X (instr : XInstr) (rd rs1 : Nat)
  | Y (instr : YInstr) (rd rs1 : Nat)
  | W (instr : WInstr) (rs1 rs2 imm : Nat)
  | V (instr : VInstr) (rs1 imm : Nat)
  | Flw (rd rs1 imm : Nat)
  | Fsw (rs1 rs2 imm : Nat)
deriving DecidableEq, Repr

inductive Instr : Type
  | R (instr : RInstr) (rd rs1 rs2 : Nat)
  | I (instr : IInstr) (rd rs1 imm : Nat)
  | S (instr : SInstr) (rs1 rs2 imm : Nat)
  | B (instr : BInstr) (rs1 rs2 imm : Nat)
  | J (instr : JInstr) (rd imm : Nat)
  | Io (io : IoInstr)
  | F (f : FInstr)
  | Misc
deriving DecidableEq, Repr

/-! ## Decoder (`decode_instr.rs`, dialect v1) -/

/-- The outcome of `DecodedInstr::decode_from`: a decoded instruction,
`Err(DecodeError::Invalid(bin))`, or an aborted execution — the
`assert_eq!(funct7, 0b1010001)` on the `0b1010011` opcode path panics
when it fails instead of returning an error. -/
inductive DecodeResult : Type
  | ok (i : Instr)
  | invalid (bin : Nat)
  | panicked
deriving DecidableEq, Repr

/-- `decode_instr.rs j_imm`. -/
def j_imm (bin sign : Nat) : Nat :=
  let part1 := extract bin 12 19
  let part2 := bit_at bin 20
  let part3 := extract bin 21 30
  let part4 := sign
  sign_extend 21 sign (part1 <<< 12 ||| part2 <<< 11 ||| part3 <<< 1 ||| part4 <<< 20)

/-- `decode_instr.rs i_imm`. -/
def i_imm (sign imm : Nat) : Nat := sign_extend 12 sign imm

/-- `decode_instr.rs s_imm`. -/
def s_imm (bin sign : Nat) : Nat :=
  sign_extend 12 sign ((extract bin 25 31 <<< 5) ||| extract bin 7 11)

/-- `decode_instr.rs b_imm`. -/
def b_imm (bin sign : Nat) : Nat :=
  let at_7 := bit_at bin 7
  let lower := extract bin 8 11
  let upper := extract bin 25 30
  sign_extend 13 sign (lower <<< 1 ||| upper <<< 5 ||| at_7 <<< 11 ||| sign <<< 12)

/-- `decode_instr.rs DecodedInstr::decode_from` (dialect v1).  The Rust
tuple matches on `(funct3, funct7)` are rendered as if-chains in source
arm order. -/
def decode_from (bin : Nat) : DecodeResult :=
  if bin = 0 then DecodeResult.ok Instr.Misc else
  let opcode := mask_lower bin 6
  let rd := extract bin 7 11
  let funct3 := extract bin 12 14
  let rs1 := extract bin 15 19
  let rs2 := extract bin 20 24
  let funct7 := extract bin 25 31
  let imm := extract bin 20 31
  let sign := bit_at bin 31
  if opcode = 0b0110011 then
    if funct3 = 0x0 ∧ funct7 = 0x00 then DecodeResult.ok (Instr.R RInstr.Add rd rs1 rs2)
    else if funct3 = 0x0 ∧ funct7 = 0x20 then DecodeResult.ok (Instr.R RInstr.Sub rd rs1 rs2)
    else if funct3 = 0x4 ∧ funct7 = 0x00 then DecodeResult.ok (Instr.R RInstr.Xor rd rs1 rs2)
    else if funct3 = 0x6 ∧ funct7 = 0x00 then DecodeResult.ok (Instr.R RInstr.Or rd rs1 rs2)
    else if funct3 = 0x7 ∧ funct7 = 0x00 then DecodeResult.ok (Instr.R RInstr.And rd rs1 rs2)
    else if funct3 = 0x1 ∧ funct7 = 0x00 then DecodeResult.ok (Instr.R RInstr.Sll rd rs1 rs2)
    else if funct3 = 0x5 ∧ funct7 = 0x20 then DecodeResult.ok (Instr.R RInstr.Sra rd rs1 rs2)
    else if funct3 = 0x2 ∧ funct7 = 0x00 then DecodeResult.ok (Instr.R RInstr.Slt rd rs1 rs2)
    else DecodeResult.invalid bin
  else if opcode = 0b0010011 then
    if funct3 = 0x0 then DecodeResult.ok (Instr.I IInstr.Addi rd rs1 (i_imm sign imm))
    else if funct3 = 0x4 then DecodeResult.ok (Instr.I IInstr.Xori rd rs1 (i_imm sign imm))
    else if funct3 = 0x6 then DecodeResult.ok (Instr.I IInstr.Ori rd rs1 (i_imm sign imm))
    else if funct3 = 0x7 then DecodeResult.ok (Instr.I IInstr.Andi rd rs1 (i_imm sign imm))
    else if funct3 = 0x1 ∧ funct7 = 0x00 then
      DecodeResult.ok (Instr.I IInstr.Slli rd rs1 (i_imm sign (mask imm 0 4)))
    else DecodeResult.invalid bin
  else if opcode = 0b0000011 then
    if funct3 = 0x2 then DecodeResult.ok (Instr.I IInstr.Lw rd rs1 (i_imm sign imm))
    else DecodeResult.invalid bin
  else if opcode = 0b1100111 then
    if funct3 = 0x0 then DecodeResult.ok (Instr.I IInstr.Jalr rd rs1 (i_imm sign imm))
    else DecodeResult.invalid bin
  else if opcode = 0b0100011 then
    if funct3 = 0x2 then DecodeResult.ok (Instr.S SInstr.Sw rs1 rs2 (s_imm bin sign))
    else DecodeResult.invalid bin
  else if opcode = 0b1100011 then
    if funct3 = 0x0 then DecodeResult.ok (Instr.B BInstr.Beq rs1 rs2 (b_imm bin sign))
    else if funct3 = 0x1 then DecodeResult.ok (Instr.B BInstr.Bne rs1 rs2 (b_imm bin sign))
    else if funct3 = 0x4 then DecodeResult.ok (Instr.B BInstr.Blt rs1 rs2 (b_imm bin sign))
    else if funct3 = 0x5 then DecodeResult.ok (Instr.B BInstr.Bge rs1 rs2 (b_imm bin sign))
    else DecodeResult.invalid bin
  else if opcode = 0b1101111 then
    DecodeResult.ok (Instr.J JInstr.Jal rd (j_imm bin sign))
  else if opcode = 0b0001011 then
    DecodeResult.ok (Instr.Io (IoInstr.Inw rd))
  else if opcode = 0b0101011 then
    DecodeResult.ok (Instr.Io (IoInstr.Outb rs1))
  else if opcode = 0b0001111 then
    DecodeResult.ok (Instr.Io (IoInstr.Finw rd))
  else if opcode = 0b1010011 then
    if funct3 = 0 then
      if funct7 = 0b0000 then DecodeResult.ok (Instr.F (FInstr.E EInstr.Fadd rd rs1 rs2))
      else if funct7 = 0b0100 then DecodeResult.ok (Instr.F (FInstr.E EInstr.Fsub rd rs1 rs2))
      else if funct7 = 0b1000 then DecodeResult.ok (Instr.F (FInstr.E EInstr.Fmul rd rs1 rs2))
      else if funct7 = 0b1100 then DecodeResult.ok (Instr.F (FInstr.E EInstr.Fdiv rd rs1 rs2))
      else if funct7 = 0b011000 then DecodeResult.ok (Instr.F (FInstr.E EInstr.Fsgnj rd rs1 rs2))
      else if funct7 = 0b011100 then DecodeResult.ok (Instr.F (FInstr.E EInstr.Fsgnjn rd rs1 rs2))
      else if funct7 = 0b100000 then DecodeResult.ok (Instr.F (FInstr.E EInstr.Fsgnjx rd rs1 rs2))
      else if funct7 = 0b10000 then DecodeResult.ok (Instr.F (FInstr.H HInstr.Fsqrt rd rs1))
      else if funct7 = 0b10100 then DecodeResult.ok (Instr.F (FInstr.H HInstr.Fhalf rd rs1))
      else if funct7 = 0b1000000 then DecodeResult.ok (Instr.F (FInstr.H HInstr.Ffloor rd rs1))
      else if funct7 = 0b1000101 then DecodeResult.ok (Instr.F (FInstr.Y YInstr.Fftoi rd rs1))
      else if funct7 = 0b0100110 then DecodeResult.ok (Instr.F (FInstr.X XInstr.Fitof rd rs1))
      else DecodeResult.invalid bin
    else
      if funct7 ≠ 0b1010001 then DecodeResult.panicked
      else if funct3 &&& 0b100 = 0 then
        if funct3 = 0b001 then DecodeResult.ok (Instr.F (FInstr.K KInstr.Flt rd rs1 rs2))
        else DecodeResult.invalid bin
      else
        if funct3 = 0b100 then DecodeResult.ok (Instr.F (FInstr.Y YInstr.Fiszero rd rs1))
        else if funct3 = 0b101 then DecodeResult.ok (Instr.F (FInstr.Y YInstr.Fispos rd rs1))
        else if funct3 = 0b110 then DecodeResult.ok (Instr.F (FInstr.Y YInstr.Fisneg rd rs1))
        else DecodeResult.invalid bin
  else if opcode = 0b1010111 then
    if funct3 &&& 0b100 = 0 then
      if funct3 = 0b001 then DecodeResult.ok (Instr.F (FInstr.W WInstr.Fblt rs1 rs2 (b_imm bin sign)))
      else if funct3 = 0b010 then DecodeResult.ok (Instr.F (FInstr.W WInstr.Fbge rs1 rs2 (b_imm bin sign)))
      else DecodeResult.invalid bin
    else
      if funct3 = 0b100 then DecodeResult.ok (Instr.F (FInstr.V VInstr.Fbeqz rs1 (b_imm bin sign)))
      else if funct3 = 0b111 then DecodeResult.ok (Instr.F (FInstr.V VInstr.Fbnez rs1 (b_imm bin sign)))
      else DecodeResult.invalid bin
  else if opcode = 0b0000111 then
    DecodeResult.ok (Instr.F (FInstr.Flw rd rs1 (i_imm sign imm)))
  else if opcode = 0b0100111 then
    DecodeResult.ok (Instr.F (FInstr.Fsw rs1 rs2 (s_imm bin sign)))
  else DecodeResult.invalid bin

/-! ## CPU datapath (`cpu.rs`)

The source's `f32` operations come either from the pluggable FPU
backend (`fpu_wrapper.rs`) or from the host's native float arithmetic;
both are opaque to every claim, so all float-valued operations and
float comparisons of the execute stage are collected in a `FloatModel`
parameter operating on raw bit patterns. -/

structure FloatModel : Type where
  fadd : Nat → Nat → Nat
  fsub : Nat → Nat → Nat
  fmul : Nat → Nat → Nat
  fdiv : Nat → Nat → Nat
  fsgnj : Nat → Nat → Nat
  fsgnjn : Nat → Nat → Nat
  fsgnjx : Nat → Nat → Nat
  fsqrt : Nat → Nat
  fhalf : Nat → Nat
  ffloor : Nat → Nat
  fcvtsw : Nat → Nat
  fcvtws : Nat → Nat
  flt : Nat → Nat → Bool
  fge : Nat → Nat → Bool
  feqz : Nat → Bool
  fgtz : Nat → Bool
  fltz : Nat → Bool

/-- A trivial instance used by concrete witnesses (the claims hold for
every `FloatModel`). -/
def FloatModel.triv : FloatModel :=
  { fadd := fun _ _ => 0, fsub := fun _ _ => 0, fmul := fun _ _ => 0,
    fdiv := fun _ _ => 0, fsgnj := fun _ _ => 0, fsgnjn := fun _ _ => 0,
    fsgnjx := fun _ _ => 0, fsqrt := fun _ => 0, fhalf := fun _ => 0,
    ffloor := fun _ => 0, fcvtsw := fun _ => 0, fcvtws := fun _ => 0,
    flt := fun _ _ => false, fge := fun _ _ => false, feqz := fun _ => false,
    fgtz := fun _ => false, fltz := fun _ => false }

/-- `cpu.rs RuntimeError`: memory faults arrive via `#[from]
MemoryAccessError`; decoder and I/O failures both travel as
`anyhow::Error` in the source and are kept distinguishable here. -/
inductive RuntimeError : Type
  | MemoryAccess (e : MemoryAccessError)
  | DecodeInvalid (bin : Nat)
  | IoFailure
deriving DecidableEq, Repr

/-- I/O collaborators (`io.rs` `Input`/`Output` traits): the input is a
typed token stream (integers for `inw`, float bit patterns for `finw`,
a mismatched or exhausted stream fails, as with the SLD input); `outb`
appends the low byte to the output sink. -/
inductive IoTok : Type
  | int (v : Nat)
  | flt (bits : Nat)
deriving DecidableEq, Repr

structure IoState : Type where
  input : List IoTok
  output : List Nat

def IoState.inw (io : IoState) : Except RuntimeError (Nat × IoState) :=
  match io.input with
  | IoTok.int v :: rest => Except.ok (v, { io with input := rest })
  | _ => Except.error RuntimeError.IoFailure

def IoState.finw (io : IoState) : Except RuntimeError (Nat × IoState) :=
  match io.input with
  | IoTok.flt v :: rest => Except.ok (v, { io with input := rest })
  | _ => Except.error RuntimeError.IoFailure

def IoState.outb (io : IoState) (c : Nat) : IoState :=
  { io with output := io.output ++ [c % 256] }

/-- `cpu.rs Cpu` (fields that the claims observe; the display-only
statistics are omitted). -/
structure Cpu : Type where
  reg_file : RegFile
  memory : Memory
  cache : Cache
  pc : Nat
  io : IoState
  branch_predictor : BranchPredictor
  b_stat : BranchStat
  c_stat : CacheStat

/-- `cpu.rs MemoryAccessInput`. -/
inductive MemoryAccessInput : Type
  | I (addr val : Nat)
  | F (addr val : Nat)
  | IMem (id addr : Nat)
  | FMem (id addr : Nat)
deriving DecidableEq, Repr

/-- `cpu.rs WriteBackInput`. -/
inductive WriteBackInput : Type
  | I (id val : Nat)
  | F (id val : Nat)
deriving DecidableEq, Repr

/-- `cpu.rs ExecuteOutput` (without the `time_predict` fields). -/
structure ExecuteOutput : Type where
  ma_in : Option MemoryAccessInput
  wb_in : Option WriteBackInput
  new_pc : Option Nat
  end_flag : Bool

/-- `ExecuteOutput::default()`. -/
def ExecuteOutput.dflt : ExecuteOutput :=
  { ma_in := none, wb_in := none, new_pc := none, end_flag := false }

/-- The v1 R-format ALU (`cpu.rs Cpu::execute`, `cfg(not(isa_2nd))`
arm).  `wrapping_add`/`wrapping_sub` wrap mod `2^32`; `<<`/`>>` on
`u32` mask the shift amount to its low 5 bits in release builds (debug
builds panic on a shift amount ≥ 32).  Note `Sra` is `rs1 >> rs2` on
`u32`, a logical shift. -/
def r_alu (i : RInstr) (rs1 rs2 : Nat) : Nat :=
  match i with
  | RInstr.Add => wrap32 (rs1 + rs2)
  | RInstr.Sub => wrap32 (rs1 + U32M - rs2)
  | RInstr.Xor => rs1 ^^^ rs2
  | RInstr.Or => rs1 ||| rs2
  | RInstr.And => rs1 &&& rs2
  | RInstr.Sll => wrap32 (rs1 <<< (rs2 % 32))
  | RInstr.Sra => rs1 >>> (rs2 % 32)
  | RInstr.Slt => if toI32 rs1 < toI32 rs2 then 1 else 0

/-- The v1 immediate ALU for the pure `I`-format operations (`Lw` and
`Jalr` have side effects and are handled in `execute`; their entries
here are unused). -/
def i_alu (i : IInstr) (rs1 imm : Nat) : Nat :=
  match i with
  | IInstr.Addi => wrap32 (rs1 + imm)
  | IInstr.Xori => rs1 ^^^ imm
  | IInstr.Ori => rs1 ||| imm
  | IInstr.Andi => rs1 &&& imm
  | IInstr.Slli => wrap32 (rs1 <<< (imm % 32))
  | IInstr.Slti => if toI32 rs1 < toI32 imm then 1 else 0
  | IInstr.Lw => 0
  | IInstr.Jalr => 0

/-- `cpu.rs Cpu::reg_fetch`: substitute source-register operands with
their current register-file values. -/
def Cpu.reg_fetch (c : Cpu) (i : Instr) : Instr :=
  match i with
  | Instr.R instr rd rs1 rs2 => Instr.R instr rd (c.reg_file.get rs1) (c.reg_file.get rs2)
  | Instr.I instr rd rs1 imm => Instr.I instr rd (c.reg_file.get rs1) imm
  | Instr.S instr rs1 rs2 imm => Instr.S instr (c.reg_file.get rs1) (c.reg_file.get rs2) imm
  | Instr.B instr rs1 rs2 imm => Instr.B instr (c.reg_file.get rs1) (c.reg_file.get rs2) imm
  | Instr.J instr rd imm => Instr.J instr rd imm
  | Instr.Io (IoInstr.Outb rs) => Instr.Io (IoInstr.Outb (c.reg_file.get rs))
  | Instr.Io (IoInstr.Inw rd) => Instr.Io (IoInstr.Inw rd)
  | Instr.Io (IoInstr.Finw rd) => Instr.Io (IoInstr.Finw rd)
  | Instr.F (FInstr.E instr rd rs1 rs2) =>
      Instr.F (FInstr.E instr rd (c.reg_file.get_f rs1) (c.reg_file.get_f rs2))
  | Instr.F (FInstr.H instr rd rs1) => Instr.F (FInstr.H instr rd (c.reg_file.get_f rs1))
  | Instr.F (FInstr.K instr rd rs1 rs2) =>
      Instr.F (FInstr.K instr rd (c.reg_file.get_f rs1) (c.reg_file.get_f rs2))
  | Instr.F (FInstr.X instr rd rs1) => Instr.F (FInstr.X instr rd (c.reg_file.get rs1))
  | Instr.F (FInstr.Y instr rd rs1) => Instr.F (FInstr.Y instr rd (c.reg_file.get_f rs1))
  | Instr.F (FInstr.W instr rs1 rs2 imm) =>
      Instr.F (FInstr.W instr (c.reg_file.get_f rs1) (c.reg_file.get_f rs2) imm)
  | Instr.F (FInstr.V instr rs1 imm) => Instr.F (FInstr.V instr (c.reg_file.get_f rs1) imm)
  | Instr.F (FInstr.Flw rd rs1 imm) => Instr.F (FInstr.Flw rd (c.reg_file.get rs1) imm)
  | Instr.F (FInstr.Fsw rs1 rs2 imm) =>
      Instr.F (FInstr.Fsw (c.reg_file.get rs1) (c.reg_file.get_f rs2) imm)
  | Instr.Misc => Instr.Misc

/-- The `B`-format branch condition (`cpu.rs Cpu::execute`): `blt` and
`bge` are signed comparisons. -/
def b_cond (bi : BInstr) (rs1 rs2 : Nat) : Bool :=
  match bi with
  | BInstr.Beq => rs1 = rs2
  | BInstr.Bne => rs1 ≠ rs2
  | BInstr.Blt => toI32 rs1 < toI32 rs2
  | BInstr.Bge => toI32 rs1 ≥ toI32 rs2

/-- The `W`-format (float branch) condition. -/
def w_cond (fm : FloatModel) (wi : WInstr) (rs1 rs2 : Nat) : Bool :=
  match wi with
  | WInstr.Fblt => fm.flt rs1 rs2
  | WInstr.Fbge => fm.fge rs1 rs2

/-- The `V`-format (float branch on zero) condition; `rs1 != 0.0` is
the exact negation of `rs1 == 0.0` for `f32`. -/
def v_cond (fm : FloatModel) (vi : VInstr) (rs1 : Nat) : Bool :=
  match vi with
  | VInstr.Fbeqz => fm.feqz rs1
  | VInstr.Fbnez => !fm.feqz rs1

/-- The predictor interaction shared verbatim by the `B`, `W`, `V`
(and v2 `P`) execute arms (feature `stat`): query the predictor at
`self.pc` (already incremented by the fetch), train it with the actual
outcome, and record the pair in the branch statistics.  Returns the
prediction that was read before training. -/
def Cpu.branch_update (c : Cpu) (cond : Bool) : Bool × Cpu :=
  let prediction_result := c.branch_predictor.predict c.pc
  (prediction_result,
   { c with branch_predictor := c.branch_predictor.update_state c.pc cond,
            b_stat := c.b_stat.update_stat prediction_result cond })

/-- `cpu.rs Cpu::execute` (dialect v1).  `self.pc` holds the
incremented PC at this point; errors (I/O) occur before any state
mutation in the modelled arms, so the error case carries no state. -/
def Cpu.execute (c : Cpu) (fm : FloatModel) (instr : Instr)
    (old_pc pc_plus4 : Nat) : Except RuntimeError (ExecuteOutput × Cpu) :=
  match instr with
  | Instr.R _instr rd rs1 rs2 =>
      Except.ok ({ ExecuteOutput.dflt with
                    wb_in := some (WriteBackInput.I rd (r_alu _instr rs1 rs2)) }, c)
  | Instr.I IInstr.Lw rd rs1 imm =>
      Except.ok ({ ExecuteOutput.dflt with
                    ma_in := some (MemoryAccessInput.IMem rd (wrap32 (rs1 + imm))) }, c)
  | Instr.I IInstr.Jalr rd rs1 imm =>
      Except.ok ({ ExecuteOutput.dflt with
                    new_pc := some (wrap32 (rs1 + imm)),
                    wb_in := some (WriteBackInput.I rd pc_plus4) }, c)
  | Instr.I _instr rd rs1 imm =>
      Except.ok ({ ExecuteOutput.dflt with
                    wb_in := some (WriteBackInput.I rd (i_alu _instr rs1 imm)) }, c)
  | Instr.S SInstr.Sw rs1 rs2 imm =>
      Except.ok ({ ExecuteOutput.dflt with
                    ma_in := some (MemoryAccessInput.I (wrap32 (rs1 + imm)) rs2) }, c)
  | Instr.B _instr rs1 rs2 imm =>
      let cond : Bool := b_cond _instr rs1 rs2
      let new_pc := if cond then some (wrap32 (old_pc + imm)) else none
      let (_, c) := c.branch_update cond
      Except.ok ({ ExecuteOutput.dflt with new_pc := new_pc }, c)
  | Instr.J JInstr.Jal rd imm =>
      Except.ok ({ ExecuteOutput.dflt with
                    wb_in := some (WriteBackInput.I rd pc_plus4),
                    new_pc := some (wrap32 (old_pc + imm)) }, c)
  | Instr.Io (IoInstr.Outb rs) =>
      Except.ok (ExecuteOutput.dflt, { c with io := c.io.outb rs })
  | Instr.Io (IoInstr.Inw rd) =>
      match c.io.inw with
      | Except.error e => Except.error e
      | Except.ok (val, io) =>
          Except.ok ({ ExecuteOutput.dflt with
                        wb_in := some (WriteBackInput.I rd val) }, { c with io := io })
  | Instr.Io (IoInstr.Finw rd) =>
      match c.io.finw with
      | Except.error e => Except.error e
      | Except.ok (val, io) =>
          Except.ok ({ ExecuteOutput.dflt with
                        wb_in := some (WriteBackInput.F rd val) }, { c with io := io })
  | Instr.F (FInstr.E _instr rd rs1 rs2) =>
      let val :=
        match _instr with
        | EInstr.Fadd => fm.fadd rs1 rs2
        | EInstr.Fsub => fm.fsub rs1 rs2
        | EInstr.Fmul => fm.fmul rs1 rs2
        | EInstr.Fdiv => fm.fdiv rs1 rs2
        | EInstr.Fsgnj => fm.fsgnj rs1 rs2
        | EInstr.Fsgnjn => fm.fsgnjn rs1 rs2
        | EInstr.Fsgnjx => fm.fsgnjx rs1 rs2
      Except.ok ({ ExecuteOutput.dflt with wb_in := some (WriteBackInput.F rd val) }, c)
  | Instr.F (FInstr.H _instr rd rs1) =>
      let val :=
        match _instr with
        | HInstr.Fsqrt => fm.fsqrt rs1
        | HInstr.Fhalf => fm.fhalf rs1
        | HInstr.Ffloor => fm.ffloor rs1
      Except.ok ({ ExecuteOutput.dflt with wb_in := some (WriteBackInput.F rd val) }, c)
  | Instr.F (FInstr.K KInstr.Flt rd rs1 rs2) =>
      let val := if fm.flt rs1 rs2 then 1 else 0
      Except.ok ({ ExecuteOutput.dflt with wb_in := some (WriteBackInput.I rd val) }, c)
  | Instr.F (FInstr.X XInstr.Fitof rd rs1) =>
      Except.ok ({ ExecuteOutput.dflt with
                    wb_in := some (WriteBackInput.F rd (fm.fcvtsw rs1)) }, c)
  | Instr.F (FInstr.Y _instr rd rs1) =>
      let val :=
        match _instr with
        | YInstr.Fiszero => if fm.feqz rs1 then 1 else 0
        | YInstr.Fispos => if fm.fgtz rs1 then 1 else 0
        | YInstr.Fisneg => if fm.fltz rs1 then 1 else 0
        | YInstr.Fftoi => fm.fcvtws rs1
      Except.ok ({ ExecuteOutput.dflt with wb_in := some (WriteBackInput.I rd val) }, c)
  | Instr.F (FInstr.W _instr rs1 rs2 imm) =>
      let cond : Bool := w_cond fm _instr rs1 rs2
      let new_pc := if cond then some (wrap32 (old_pc + imm)) else none
      let (_, c) := c.branch_update cond
      Except.ok ({ ExecuteOutput.dflt with new_pc := new_pc }, c)
  | Instr.F (FInstr.V _instr rs1 imm) =>
      let cond : Bool := v_cond fm _instr rs1
      let new_pc := if cond then some (wrap32 (old_pc + imm)) else none
      let (_, c) := c.branch_update cond
      Except.ok ({ ExecuteOutput.dflt with new_pc := new_pc }, c)
  | Instr.F (FInstr.Flw rd rs1 imm) =>
      Except.ok ({ ExecuteOutput.dflt with
                    ma_in := some (MemoryAccessInput.FMem rd (wrap32 (rs1 + imm))) }, c)
  | Instr.F (FInstr.Fsw rs1 rs2 imm) =>
      Except.ok ({ ExecuteOutput.dflt with
                    ma_in := some (MemoryAccessInput.F (wrap32 (rs1 + imm)) rs2) }, c)
  | Instr.Misc =>
      Except.ok ({ ExecuteOutput.dflt with end_flag := true }, c)

/-- The v2 `P`-format condition (`PInstr` variants `Beqi, Bnei, Blti,
Bgei, Bgti, Blei` indexed 0..5). -/
def p_cond (pi : Nat) (rs1 imm2 : Nat) : Bool :=
  match pi with
  | 0 => rs1 = imm2
  | 1 => rs1 ≠ imm2
  | 2 => toI32 rs1 < toI32 imm2
  | 3 => toI32 rs1 ≥ toI32 imm2
  | 4 => toI32 rs1 > toI32 imm2
  | _ => toI32 rs1 ≤ toI32 imm2

/-- The v2 `P` (compare-immediate branch) execute arm, `cpu.rs` under
`cfg(feature = "isa_2nd")` — the only real `P` code in the repository;
the v1 build leaves `P` `unreachable!()`.  Modelled standalone for the
branch-predictor claim; the predictor interaction is identical to the
`B` arm. -/
def exec_p_2nd (c : Cpu) (pi : Nat) (rs1 imm imm2 old_pc : Nat) :
    ExecuteOutput × Cpu :=
  let cond : Bool := p_cond pi rs1 imm2
  let new_pc := if cond then some (wrap32 (old_pc + imm)) else none
  let (_, c) := c.branch_update cond
  ({ ExecuteOutput.dflt with new_pc := new_pc }, c)

/-- `cpu.rs MemoryAccessOutput` (without the `time_predict` fields). -/
structure MemoryAccessOutput : Type where
  cache_hit : Bool
  wb_in : Option WriteBackInput

/-- Result of `Cpu::memory_access`: on an error the mutations already
performed (the cache access) persist, so the error carries the CPU. -/
inductive MaRes : Type
  | ok (out : MemoryAccessOutput) (c : Cpu) (spied : Option SpyResult)
  | error (e : RuntimeError) (c : Cpu)

/-- `cpu.rs Cpu::memory_access` (feature `stat`, no `time_predict`):
every access goes through the cache model, then the memory, then the
cache statistics. -/
def Cpu.memory_access (c : Cpu) (ma : MemoryAccessInput)
    (spied : Option SpyResult) : MaRes :=
  match ma with
  | MemoryAccessInput.I addr val =>
      let (hit, cache) := c.cache.access_cache addr
      let c := { c with cache := cache }
      match c.memory.set addr val spied with
      | Except.error e => MaRes.error (RuntimeError.MemoryAccess e) c
      | Except.ok (mem, spied) =>
          MaRes.ok { cache_hit := hit, wb_in := none }
            { c with memory := mem, c_stat := c.c_stat.update_stat hit } spied
  | MemoryAccessInput.F addr val =>
      let (hit, cache) := c.cache.access_cache addr
      let c := { c with cache := cache }
      match c.memory.set_f addr val spied with
      | Except.error e => MaRes.error (RuntimeError.MemoryAccess e) c
      | Except.ok (mem, spied) =>
          MaRes.ok { cache_hit := hit, wb_in := none }
            { c with memory := mem, c_stat := c.c_stat.update_stat hit } spied
  | MemoryAccessInput.IMem id addr =>
      let (hit, cache) := c.cache.access_cache addr
      let c := { c with cache := cache }
      match c.memory.get_i addr spied with
      | Except.error e => MaRes.error (RuntimeError.MemoryAccess e) c
      | Except.ok (v, mem, spied) =>
          MaRes.ok { cache_hit := hit, wb_in := some (WriteBackInput.I id v.value) }
            { c with memory := mem, c_stat := c.c_stat.update_stat hit } spied
  | MemoryAccessInput.FMem id addr =>
      let (hit, cache) := c.cache.access_cache addr
      let c := { c with cache := cache }
      match c.memory.get_f addr spied with
      | Except.error e => MaRes.error (RuntimeError.MemoryAccess e) c
      | Except.ok (v, mem, spied) =>
          MaRes.ok { cache_hit := hit, wb_in := some (WriteBackInput.F id v) }
            { c with memory := mem, c_stat := c.c_stat.update_stat hit } spied

/-- `cpu.rs Cpu::write_back`. -/
def Cpu.write_back (c : Cpu) : Option WriteBackInput → Cpu
  | some (WriteBackInput.I id val) => { c with reg_file := c.reg_file.set id val }
  | some (WriteBackInput.F id val) => { c with reg_file := c.reg_file.set_f id val }
  | none => c

/-- `cpu.rs ControlFlow` (CPU level). -/
inductive CpuFlow : Type
  | Continue
  | BreakSpy (s : SpyResult)
  | Exit

/-- Outcome of one CPU tick.  `error` carries the CPU state because
`cycle_one_full(&mut self)` leaves its mutations in place when it
returns `Err`; `panicked` models an aborted process (the decoder's
failed assertion). -/
inductive CpuOutcome : Type
  | ok (flow : CpuFlow) (c : Cpu)
  | error (e : RuntimeError) (c : Cpu)
  | panicked

/-- The part of `cpu.rs Cpu::cycle_one_full` that follows the execute
stage: `End` exit, control-flow commit, memory access (with the spy
out-parameter, `None` at the start of every tick), write back, and
flow selection. -/
def Cpu.cycle_tail (c : Cpu) (exOut : ExecuteOutput) : CpuOutcome :=
  if exOut.end_flag then CpuOutcome.ok CpuFlow.Exit c
  else
    let c := match exOut.new_pc with
             | some v => { c with pc := v }
             | none => c
    match exOut.ma_in with
    | some ma =>
      match c.memory_access ma none with
      | MaRes.error e cm => CpuOutcome.error e cm
      | MaRes.ok maOut cm spied =>
        let wb := match maOut.wb_in with
                  | some w => some w
                  | none => exOut.wb_in
        let cw := cm.write_back wb
        match spied with
        | some sp => CpuOutcome.ok (CpuFlow.BreakSpy sp) cw
        | none => CpuOutcome.ok CpuFlow.Continue cw
    | none =>
      CpuOutcome.ok CpuFlow.Continue (c.write_back exOut.wb_in)

/-- `cpu.rs Cpu::cycle_one_full` (trace and `time_predict` cycle
accounting omitted: they feed only the display layer).  Stages: fetch,
increment PC, decode, register read, execute, then `cycle_tail`. -/
def Cpu.cycle_one_full (c : Cpu) (fm : FloatModel) : CpuOutcome :=
  match c.memory.get_from_pc c.pc with
  | Except.error e => CpuOutcome.error (RuntimeError.MemoryAccess e) c
  | Except.ok bin =>
    let old_pc := c.pc
    let c := { c with pc := wrap32 (c.pc + 4) }
    let pc_plus4 := c.pc
    match decode_from bin with
    | DecodeResult.panicked => CpuOutcome.panicked
    | DecodeResult.invalid b => CpuOutcome.error (RuntimeError.DecodeInvalid b) c
    | DecodeResult.ok instr =>
      match c.execute fm (c.reg_fetch instr) old_pc pc_plus4 with
      | Except.error e => CpuOutcome.error e c
      | Except.ok (exOut, c) => c.cycle_tail exOut

/-! ## Simulator facade (`sim.rs`)

The unbounded `Run` / `SkipUntil` loops are modelled with explicit
fuel; running out of fuel is a distinct outcome (`no_fuel`), never
identified with any source behaviour. -/

/-- `common.rs Watchings` (register, float-register and word-address
watch lists). -/
structure Watchings : Type where
  reg : List Nat
  freg : List Nat
  memory : List Nat

/-- `common.rs ExecuteMode`; `RunStep` keeps the `Option` of
`RunStep::step`, resolved by `get_step` = `unwrap_or(1)`. -/
inductive ExecuteMode : Type
  | Run
  | SkipUntil (pc : Nat)
  | RunStep (step : Option Nat)

/-- `common.rs SimulationOption`.  Breakpoints are the key set of the
`HashMap<Addr, BreakPoint>`; the stored `BreakPoint` is irrelevant
because `Simulator::do_break` is constantly `true`. -/
structure SimulationOption : Type where
  mode : ExecuteMode
  breakpoints : List Nat
  watchings : Watchings

/-- `sim.rs Simulator` (debug symbols and timing statistics omitted). -/
structure Simulator : Type where
  cpu : Cpu
  cycle : Nat
  fatal_error : Option RuntimeError

/-- `sim.rs WatchingValues` (maps rendered as association lists). -/
structure WatchingValues : Type where
  reg_map : List (Nat × TypedU32)
  freg_map : List (Nat × Nat)
  memory_map : List (Nat × TypedU32)

/-- `sim.rs BreakReason`. -/
inductive SimBreakReason : Type
  | CannotRestart
  | Failed
  | Reached (a : Nat)
  | StepEnded
  | BreakPoint (a : Nat)
  | Spy (s : SpyResult)

/-- `sim.rs ControlFlow`. -/
inductive SimFlow : Type
  | Break (w : WatchingValues) (r : SimBreakReason)
  | Exit

/-- Outcome of `Simulator::single_cycle`: a returned control flow, a
panic (the `unwrap` in `gather_watchings`, or a decoder assertion), or
fuel exhaustion of the model. -/
inductive SimOutcome : Type
  | returned (f : SimFlow) (s : Simulator)
  | panicked
  | no_fuel

/-- `register.rs RegId::ty`: integer register 1 is `Usize`, the rest
`I32` (used by `Simulator::get_reg`). -/
def reg_ty (id : Nat) : Ty := if id = 1 then Ty.Usize else Ty.I32

/-- The memory part of `gather_watchings`: each watched address is read
with `get_mem(..).unwrap()` — a failed read panics (`none`). -/
def gather_mem (m : Memory) : List Nat → Option (List (Nat × TypedU32))
  | [] => some []
  | a :: rest =>
    match m.get a none with
    | Except.error _ => none
    | Except.ok (v, _, _) =>
      match gather_mem m rest with
      | none => none
      | some l => some ((a, v) :: l)

/-- `sim.rs Simulator::gather_watchings`: register reads cannot fail;
memory reads are unwrapped. -/
def Simulator.gather_watchings (sim : Simulator) (w : Watchings) :
    Option WatchingValues :=
  match gather_mem sim.cpu.memory w.memory with
  | none => none
  | some mems =>
    some { reg_map := w.reg.map (fun id =>
              (id, { ty := reg_ty id, value := sim.cpu.reg_file.get id })),
           freg_map := w.freg.map (fun id => (id, sim.cpu.reg_file.get_f id)),
           memory_map := mems }

/-- `sim.rs Simulator::break_sim`: gather the watched values (possibly
panicking) and return a `Break` with the given reason; the simulator
state is not modified. -/
def Simulator.break_sim (sim : Simulator) (opt : SimulationOption)
    (r : SimBreakReason) : SimOutcome :=
  match sim.gather_watchings opt.watchings with
  | none => SimOutcome.panicked
  | some w => SimOutcome.returned (SimFlow.Break w r) sim

/-- Result of one expansion of the `execute!()` macro body: an early
return out of `single_cycle`, or continuation with the updated
simulator. -/
inductive StepRes : Type
  | ret (o : SimOutcome)
  | cont (s : Simulator)

/-- One expansion of the `execute!()` macro in
`sim.rs Simulator::single_cycle`: breakpoint check (skipped on the
entry iteration), one CPU cycle, error latching, cycle counting, and
flow dispatch. -/
def Simulator.exec_once (sim : Simulator) (fm : FloatModel)
    (opt : SimulationOption) (is_enter : Bool) : StepRes :=
  if ¬is_enter ∧ opt.breakpoints.contains sim.cpu.pc then
    StepRes.ret (sim.break_sim opt (SimBreakReason.BreakPoint sim.cpu.pc))
  else
    match sim.cpu.cycle_one_full fm with
    | CpuOutcome.panicked => StepRes.ret SimOutcome.panicked
    | CpuOutcome.error e c =>
        StepRes.ret (Simulator.break_sim
          { sim with cpu := c, fatal_error := some e } opt SimBreakReason.Failed)
    | CpuOutcome.ok flow c =>
        let sim := { sim with cpu := c, cycle := sim.cycle + 1 }
        match flow with
        | CpuFlow.Continue => StepRes.cont sim
        | CpuFlow.BreakSpy sp => StepRes.ret (sim.break_sim opt (SimBreakReason.Spy sp))
        | CpuFlow.Exit => StepRes.ret (SimOutcome.returned SimFlow.Exit sim)

/-- The `ExecuteMode::Run` loop. -/
def run_loop (fm : FloatModel) (opt : SimulationOption) :
    Nat → Simulator → Bool → SimOutcome
  | 0, _, _ => SimOutcome.no_fuel
  | fuel + 1, sim, is_enter =>
    match sim.exec_once fm opt is_enter with
    | StepRes.ret o => o
    | StepRes.cont s => run_loop fm opt fuel s false

/-- The `ExecuteMode::SkipUntil` loop: the PC test is checked at loop
top, skipped on the entry iteration. -/
def skip_loop (fm : FloatModel) (opt : SimulationOption) (pc : Nat) :
    Nat → Simulator → Bool → SimOutcome
  | 0, _, _ => SimOutcome.no_fuel
  | fuel + 1, sim, is_enter =>
    if ¬is_enter ∧ sim.cpu.pc = pc then sim.break_sim opt (SimBreakReason.Reached pc)
    else
      match sim.exec_once fm opt is_enter with
      | StepRes.ret o => o
      | StepRes.cont s => skip_loop fm opt pc fuel s false

/-- The `ExecuteMode::RunStep(n)` loop: exactly `n` CPU cycles, then
`StepEnded`. -/
def step_loop (fm : FloatModel) (opt : SimulationOption) :
    Nat → Simulator → Bool → SimOutcome
  | 0, sim, _ => sim.break_sim opt SimBreakReason.StepEnded
  | n + 1, sim, is_enter =>
    match sim.exec_once fm opt is_enter with
    | StepRes.ret o => o
    | StepRes.cont s => step_loop fm opt n s false

/-- `sim.rs Simulator::single_cycle`: refuse to run when a fatal error
is latched, otherwise drive the CPU according to the execute mode. -/
def Simulator.single_cycle (sim : Simulator) (fm : FloatModel)
    (opt : SimulationOption) (fuel : Nat) : SimOutcome :=
  if sim.fatal_error.isSome then sim.break_sim opt SimBreakReason.CannotRestart
  else
    match opt.mode with
    | ExecuteMode.Run => run_loop fm opt fuel sim true
    | ExecuteMode.SkipUntil pc => skip_loop fm opt pc fuel sim true
    | ExecuteMode.RunStep st => step_loop fm opt (st.getD 1) sim true

/-! ## Concrete states used by counterexamples and witnesses -/

/-- A memory as `Memory::new` + `init_from_slice` leave it: bytes
`0xCC`, tags `Unknown`, no spies; instruction region `[8, 16)`. -/
def test_mem : Memory :=
  { inner := fun _ => 0xCC, instr_begin := 8, instr_end := 16,
    ty := fun _ => Ty.Unknown,
    spy_read := fun _ => false, spy_write := fun _ => false }

/-! ## Claim C1 — `sra` semantics -/

/-- C1: the v1 `sra` (`cpu.rs`, `Sra => rs1 >> rs2` with both operands
`u32`) performs a logical right shift, not the arithmetic one the claim
states: shifting `0xFFFFFFFF` (= −1) right by 31 yields 1, not
`0xFFFFFFFF` (= −1). -/
theorem c1_sra_is_logical_shift :
    r_alu RInstr.Sra 4294967295 31 = 1 ∧ (1 : Nat) ≠ 4294967295 :=
  ⟨by decide, by decide⟩

/-! ## Claim C2 — `slti` decoding -/

/-- C2: every word with opcode `0b0010011` and funct3 = 2 decodes to
`DecodeError::Invalid`, not to `slti` — the v1 decoder has no arm for
funct3 = 2 under that opcode, although `IInstr::Slti` exists and the
execute stage implements the claimed signed-less-than semantics (third
conjunct). -/
theorem c2_slti_not_decodable :
    (∀ bin, mask_lower bin 6 = 0b0010011 → extract bin 12 14 = 0x2 →
       decode_from bin = DecodeResult.invalid bin) ∧
    decode_from 0x2013 = DecodeResult.invalid 0x2013 ∧
    (∀ (c : Cpu) (fm : FloatModel) (rd rs1 imm old_pc pc_plus4 : Nat),
       c.execute fm (Instr.I IInstr.Slti rd rs1 imm) old_pc pc_plus4 =
         Except.ok ({ ExecuteOutput.dflt with
           wb_in := some (WriteBackInput.I rd
             (if toI32 rs1 < toI32 imm then 1 else 0)) }, c)) := by
  refine ⟨?_, by decide, ?_⟩
  · intro bin h1 h2
    have hb : bin ≠ 0 := by
      intro h
      rw [h] at h1
      exact absurd h1 (by decide)
    simp [decode_from, hb, h1, h2]
  · intro c fm rd rs1 imm old_pc pc_plus4
    rfl

/-! ## Claim C3 — decoder totality -/

/-- C3: the v1 decoder is not total: on opcode `0b1010011` with
funct3 ≠ 0 and funct7 ≠ `0b1010001` the `assert_eq!` fails and the
process aborts instead of returning `DecodeError::Invalid`; word
`0x00001053` is such an input. -/
theorem c3_decoder_panics :
    (∀ bin, mask_lower bin 6 = 0b1010011 → extract bin 12 14 ≠ 0 →
       extract bin 25 31 ≠ 0b1010001 → decode_from bin = DecodeResult.panicked) ∧
    decode_from 0x1053 = DecodeResult.panicked := by
  refine ⟨?_, by decide⟩
  intro bin h1 h2 h3
  have hb : bin ≠ 0 := by
    intro h
    rw [h] at h1
    exact absurd h1 (by decide)
  simp [decode_from, hb, h1, h2, h3]

/-! ## Claim C5 — instruction cache mapping -/

/-- Modelled from the claim's words: a direct-mapped, 16,384-line,
word-indexed cache where the access at word address `w` uses line
`w % 16384` and tag `w / 16384`, hits iff the stored tag of that line
equals `w / 16384`, and replaces the stored tag on a miss. -/
def Cache.access_cache_spec (c : Cache) (w : Nat) : Bool × Cache :=
  let line := w % CACHE_NUM_LINES
  let tag := w / CACHE_NUM_LINES
  if c.inner line ≠ tag then
    (false, { inner := fun i => if i = line then tag else c.inner i })
  else
    (true, c)

/-- C5 counterexample: the code applies the mapping to `addr >> 2` even
though `addr` is already a word address.  On a fresh cache an access at
word address 65536 stores tag 1 at line 0 (code), while the claim says
the stored tag becomes 65536 / 16384 = 4; and after that access, an
access at word address 16384 is a hit for the code but a miss under the
claim's mapping. -/
theorem c5_counterexample :
    ((Cache.new.access_cache 65536).2.inner 0 = 1 ∧ (1 : Nat) ≠ 65536 / 16384) ∧
    ((Cache.new.access_cache 65536).2.access_cache 16384).1 = true ∧
    ((Cache.new.access_cache_spec 65536).2.access_cache_spec 16384).1 = false := by
  refine ⟨⟨by decide, by decide⟩, by decide, by decide⟩

/-- C5 amended: the cache is direct-mapped with 16,384 lines, but for
an access routed at word address `w` the line index is `(w / 4) mod
16384` and the tag `(w / 4) / 16384` — i.e. the code behaves as the
claim's model applied to `w >> 2` instead of `w`; hit iff the stored
tag of that line equals the tag, replaced on a miss. -/
theorem c5_amended (c : Cache) (w : Nat) :
    c.access_cache w = c.access_cache_spec (w >>> 2) := rfl

/-! ## Claim C4 — bounds behaviour of data accesses -/

/-- Observer: does a memory access result carry `OutOfBounds`? -/
def is_oob {α : Type} : Except MemoryAccessError α → Bool
  | Except.error (MemoryAccessError.OutOfBounds _) => true
  | _ => false

/-- C4 counterexample: in `test_mem` the instruction region is
`[8, 16)` and word address 4 has byte offset 16 = `instr_end`; the
claim says a data load there fails with `OutOfBounds`, but
`Range::contains` is half-open, so the read succeeds. -/
theorem c4_counterexample :
    test_mem.instr_end = 4 <<< 2 ∧
    test_mem.get 4 none =
      Except.ok ({ ty := Ty.Unknown, value := 0xCCCCCCCC }, test_mem, none) :=
  ⟨rfl, rfl⟩

/-- C4 amended: a data access (`get`, `get_i`, `get_f`, `set`,
`set_f`) at word address `a` fails with `OutOfBounds` when its byte
offset `a << 2` lies inside the (half-open) instruction range or at or
beyond the RAM size — in particular at the region's start when the
region is nonempty — but an access whose byte offset equals the
region's *end* does not fail with `OutOfBounds` (the range is
half-open; typed reads may still fail with `ViolateTransmutation`). -/
theorem c4_amended :
    (∀ (m : Memory) (a v : Nat) (sp : Option SpyResult),
       (m.instr_begin ≤ a <<< 2 ∧ a <<< 2 < m.instr_end) ∨ RAM_BYTE_SIZE ≤ a <<< 2 →
         m.get a sp = Except.error (MemoryAccessError.OutOfBounds a) ∧
         m.get_i a sp = Except.error (MemoryAccessError.OutOfBounds a) ∧
         m.get_f a sp = Except.error (MemoryAccessError.OutOfBounds a) ∧
         m.set a v sp = Except.error (MemoryAccessError.OutOfBounds a) ∧
         m.set_f a v sp = Except.error (MemoryAccessError.OutOfBounds a)) ∧
    (∀ (m : Memory) (a v : Nat) (sp : Option SpyResult),
       a <<< 2 = m.instr_end → a <<< 2 < RAM_BYTE_SIZE →
         is_oob (m.get a sp) = false ∧ is_oob (m.get_i a sp) = false ∧
         is_oob (m.get_f a sp) = false ∧ is_oob (m.set a v sp) = false ∧
         is_oob (m.set_f a v sp) = false) := by
  constructor
  · intro m a v sp h
    have hbf : m.bounds_fail a = true := by
      simp only [Memory.bounds_fail, Bool.or_eq_true, Bool.and_eq_true, decide_eq_true_eq]
      omega
    refine ⟨?_, ?_, ?_, ?_, ?_⟩ <;>
      simp [Memory.get, Memory.get_i, Memory.get_f, Memory.set, Memory.set_f, hbf]
  · intro m a v sp h1 h2
    have hbf : m.bounds_fail a = false := by
      simp only [Memory.bounds_fail, Bool.or_eq_false_iff, Bool.and_eq_false_iff,
        decide_eq_false_iff_not]
      omega
    refine ⟨?_, ?_, ?_, ?_, ?_⟩
    · simp [Memory.get, hbf, is_oob]
    · simp only [Memory.get_i, hbf, Bool.false_eq_true, if_false]
      rcases hu : m.unify a Ty.I32OrUsize with e | p
      · simp only [Memory.unify] at hu
        split at hu
        · exact absurd hu (by simp)
        · split at hu
          · exact absurd hu (by simp)
          · cases hu
            rfl
      · rfl
    · simp only [Memory.get_f, hbf, Bool.false_eq_true, if_false]
      rcases hu : m.unify a Ty.F32 with e | p
      · simp only [Memory.unify] at hu
        split at hu
        · exact absurd hu (by simp)
        · split at hu
          · exact absurd hu (by simp)
          · cases hu
            rfl
      · rfl
    · simp [Memory.set, hbf, is_oob]
    · simp [Memory.set_f, hbf, is_oob]

/-! ## Claim C9 — write/read round trip -/

theorem write_word_reassemble (f : Nat → Nat) (base v : Nat) (hv : v < U32M) :
    write_word f base v base + (write_word f base v (base + 1)) <<< 8 +
      (write_word f base v (base + 2)) <<< 16 +
      (write_word f base v (base + 3)) <<< 24 = v := by
  have h0 : write_word f base v base = le_byte v 0 := by
    unfold write_word
    rw [if_pos rfl]
  have h1 : write_word f base v (base + 1) = le_byte v 1 := by
    unfold write_word
    rw [if_neg (by omega), if_pos rfl]
  have h2 : write_word f base v (base + 2) = le_byte v 2 := by
    unfold write_word
    rw [if_neg (by omega), if_neg (by omega), if_pos rfl]
  have h3 : write_word f base v (base + 3) = le_byte v 3 := by
    unfold write_word
    rw [if_neg (by omega), if_neg (by omega), if_neg (by omega), if_pos rfl]
  rw [h0, h1, h2, h3]
  unfold le_byte U32M at *
  simp only [Nat.shiftLeft_eq, Nat.shiftRight_eq_div_pow]
  norm_num
  omega

theorem write_word_other (f : Nat → Nat) (base v i : Nat)
    (h : i < base ∨ base + 3 < i) : write_word f base v i = f i := by
  unfold write_word
  rw [if_neg (by omega), if_neg (by omega), if_neg (by omega), if_neg (by omega)]

/-- The memory `Memory::set` produces on an in-bounds address (named
for use in proofs). -/
def Memory.write_i (m : Memory) (a v : Nat) : Memory :=
  { m with ty := fun i => if i = a then Ty.I32OrUsize else m.ty i,
           inner := write_word m.inner (a <<< 2) v }

/-- C9: on an in-bounds non-instruction word address, `set(a, v)`
succeeds and an immediate `get(a)` returns exactly the raw bits `v`
(with the tag reset to `I32OrUsize` by the write), while every other
memory word is unchanged. -/
theorem c9_set_get_roundtrip (m : Memory) (a v : Nat) (sp : Option SpyResult)
    (hv : v < U32M) (hb : m.bounds_fail a = false) :
    ∃ m' sp', m.set a v sp = Except.ok (m', sp') ∧
      (∃ m2 sp2, m'.get a none =
         Except.ok ({ ty := Ty.I32OrUsize, value := v }, m2, sp2)) ∧
      (∀ b, b ≠ a → m'.get_raw_addr (b <<< 2) = m.get_raw_addr (b <<< 2)) := by
  have hb2 : (m.write_i a v).bounds_fail a = false := hb
  refine ⟨m.write_i a v,
          m.on_write a { ty := Ty.I32OrUsize, value := v } sp, ?_, ?_, ?_⟩
  · simp [Memory.set, hb, Memory.write_i]
  · have hty : (m.write_i a v).type_check_any a = Ty.I32OrUsize := by
      rw [type_check_any_eq]
      simp [Memory.write_i]
    have hval : (m.write_i a v).get_raw_addr (a <<< 2) = v := by
      unfold Memory.get_raw_addr Memory.write_i
      exact write_word_reassemble m.inner (a <<< 2) v hv
    refine ⟨m.write_i a v, (m.write_i a v).on_read a none, ?_⟩
    simp only [Memory.get, hb2, Bool.false_eq_true, if_false, hty, hval]
  · intro b hba
    unfold Memory.get_raw_addr Memory.write_i
    simp only
    have hlt : b <<< 2 + 3 < a <<< 2 ∨ a <<< 2 + 3 < b <<< 2 := by
      simp only [Nat.shiftLeft_eq]
      rcases Nat.lt_or_ge b a with h | h
      · left
        omega
      · right
        have : a < b := by omega
        omega
    rw [write_word_other _ _ _ _ (by omega), write_word_other _ _ _ _ (by omega),
      write_word_other _ _ _ _ (by omega), write_word_other _ _ _ _ (by omega)]

/-- C9 witness: the round trip at word address 0 with value
`0x12345678` on `test_mem`. -/
theorem c9_witness :
    ∃ m' sp', test_mem.set 0 305419896 none = Except.ok (m', sp') ∧
      (∃ m2 sp2, m'.get 0 none =
         Except.ok ({ ty := Ty.I32OrUsize, value := 305419896 }, m2, sp2)) ∧
      (∀ b, b ≠ 0 → m'.get_raw_addr (b <<< 2) = test_mem.get_raw_addr (b <<< 2)) :=
  c9_set_get_roundtrip test_mem 0 305419896 none (by decide) (by decide)

/-! ## Claim C6 — typed-memory unification -/

/-- Modelled from the spec: the more precise of two comparable tags
(the greater one in the precision order `pcmp`). -/
def Ty.precise_max (t r : Ty) : Ty :=
  if t.pcmp r = some Ordering.lt then r else t

/-- The memory `Memory::set_f` produces on an in-bounds address. -/
def Memory.write_f (m : Memory) (a v : Nat) : Memory :=
  { m with ty := fun i => if i = a then Ty.F32 else m.ty i,
           inner := write_word m.inner (a <<< 2) v }

/-- C6: a typed read fails with `ViolateTransmutation {expected = t,
attempt = r}` exactly when the stored tag `t` and the request `r` are
incomparable; otherwise it succeeds returning the more precise of the
two, updating the stored tag to it (a promotion when `r` is strictly
more precise, a no-op otherwise).  In particular `set_f` then `get_i`
fails with expected `F32`, attempt `I32OrUsize`, and `set` then
`get_f` fails with expected `I32OrUsize`, attempt `F32`. -/
theorem c6_typed_memory :
    (∀ (m : Memory) (a : Nat) (r : Ty),
       ((m.ty a).pcmp r = none →
          m.unify a r =
            Except.error (MemoryAccessError.ViolateTransmutation (m.ty a) r)) ∧
       ((m.ty a).pcmp r ≠ none →
          ∃ m', m.unify a r = Except.ok ((m.ty a).precise_max r, m') ∧
            m'.ty a = (m.ty a).precise_max r ∧
            ∀ b, b ≠ a → m'.ty b = m.ty b)) ∧
    (∀ (m : Memory) (a v : Nat) (sp : Option SpyResult),
       m.bounds_fail a = false →
         (∃ sp1, m.set_f a v sp = Except.ok (m.write_f a v, sp1) ∧
            (m.write_f a v).get_i a none = Except.error
              (MemoryAccessError.ViolateTransmutation Ty.F32 Ty.I32OrUsize)) ∧
         (∃ sp2, m.set a v sp = Except.ok (m.write_i a v, sp2) ∧
            (m.write_i a v).get_f a none = Except.error
              (MemoryAccessError.ViolateTransmutation Ty.I32OrUsize Ty.F32))) := by
  constructor
  · intro m a r
    constructor
    · intro h
      simp [Memory.unify, h]
    · intro h
      rcases ho : (m.ty a).pcmp r with _ | o
      · exact absurd ho h
      rcases o with _ | _ | _
      · refine ⟨{ m with ty := fun i => if i = a then r else m.ty i }, ?_, ?_, ?_⟩
        · simp [Memory.unify, ho, Ty.precise_max]
        · simp [Ty.precise_max, ho]
        · intro b hb
          simp [hb]
      · refine ⟨m, ?_, ?_, fun b _ => rfl⟩
        · simp [Memory.unify, ho, Ty.precise_max]
        · simp [Ty.precise_max, ho]
      · refine ⟨m, ?_, ?_, fun b _ => rfl⟩
        · simp [Memory.unify, ho, Ty.precise_max]
        · simp [Ty.precise_max, ho]
  · intro m a v sp hb
    have hbf : (m.write_f a v).bounds_fail a = false := hb
    have hbi : (m.write_i a v).bounds_fail a = false := hb
    constructor
    · refine ⟨m.on_write a { ty := Ty.F32, value := v } sp, ?_, ?_⟩
      · simp [Memory.set_f, hb, Memory.write_f]
      · simp [Memory.get_i, hbf, Memory.unify, Memory.write_f, Ty.pcmp]
        exact hb
    · refine ⟨m.on_write a { ty := Ty.I32OrUsize, value := v } sp, ?_, ?_⟩
      · simp [Memory.set, hb, Memory.write_i]
      · simp [Memory.get_f, hbi, Memory.unify, Memory.write_i, Ty.pcmp]
        exact hb

/-! ## Claim C8 — branch predictor query index -/

/-- Observer: the CPU state a tick left behind (none after a panic). -/
def CpuOutcome.state : CpuOutcome → Option Cpu
  | CpuOutcome.ok _ c => some c
  | CpuOutcome.error _ c => some c
  | CpuOutcome.panicked => none

/-- Observer: did the tick complete with `ControlFlow::Continue`? -/
def CpuOutcome.is_ok_continue : CpuOutcome → Bool
  | CpuOutcome.ok CpuFlow.Continue _ => true
  | _ => false

/-- C8: for every conditional branch (integer `B`, float `W`/`V`, and
the v2 `P` arm) executed at PC `p`, the predictor is queried at the
already-incremented PC `p + 4` (reduced mod 64 inside `predict`), the
prediction is read before training (it is the one recorded in the
branch statistics), and the predictor is then trained at that same
index with the branch's actual outcome; the PC moves to the branch
target exactly when that outcome is taken. -/
theorem c8_predictor_query :
    (∀ (c : Cpu) (fm : FloatModel) (bin : Nat) (bi : BInstr) (rs1 rs2 imm : Nat),
       c.memory.get_from_pc c.pc = Except.ok bin →
       decode_from bin = DecodeResult.ok (Instr.B bi rs1 rs2 imm) →
       (c.cycle_one_full fm).is_ok_continue = true ∧
       (c.cycle_one_full fm).state.map Cpu.branch_predictor =
         some (c.branch_predictor.update_state (wrap32 (c.pc + 4))
           (b_cond bi (c.reg_file.get rs1) (c.reg_file.get rs2))) ∧
       (c.cycle_one_full fm).state.map Cpu.b_stat =
         some (c.b_stat.update_stat
           (c.branch_predictor.predict (wrap32 (c.pc + 4)))
           (b_cond bi (c.reg_file.get rs1) (c.reg_file.get rs2))) ∧
       (c.cycle_one_full fm).state.map Cpu.pc =
         some (if b_cond bi (c.reg_file.get rs1) (c.reg_file.get rs2)
               then wrap32 (c.pc + imm) else wrap32 (c.pc + 4))) ∧
    (∀ (c : Cpu) (fm : FloatModel) (bin : Nat) (wi : WInstr) (rs1 rs2 imm : Nat),
       c.memory.get_from_pc c.pc = Except.ok bin →
       decode_from bin = DecodeResult.ok (Instr.F (FInstr.W wi rs1 rs2 imm)) →
       (c.cycle_one_full fm).is_ok_continue = true ∧
       (c.cycle_one_full fm).state.map Cpu.branch_predictor =
         some (c.branch_predictor.update_state (wrap32 (c.pc + 4))
           (w_cond fm wi (c.reg_file.get_f rs1) (c.reg_file.get_f rs2))) ∧
       (c.cycle_one_full fm).state.map Cpu.b_stat =
         some (c.b_stat.update_stat
           (c.branch_predictor.predict (wrap32 (c.pc + 4)))
           (w_cond fm wi (c.reg_file.get_f rs1) (c.reg_file.get_f rs2))) ∧
       (c.cycle_one_full fm).state.map Cpu.pc =
         some (if w_cond fm wi (c.reg_file.get_f rs1) (c.reg_file.get_f rs2)
               then wrap32 (c.pc + imm) else wrap32 (c.pc + 4))) ∧
    (∀ (c : Cpu) (fm : FloatModel) (bin : Nat) (vi : VInstr) (rs1 imm : Nat),
       c.memory.get_from_pc c.pc = Except.ok bin →
       decode_from bin = DecodeResult.ok (Instr.F (FInstr.V vi rs1 imm)) →
       (c.cycle_one_full fm).is_ok_continue = true ∧
       (c.cycle_one_full fm).state.map Cpu.branch_predictor =
         some (c.branch_predictor.update_state (wrap32 (c.pc + 4))
           (v_cond fm vi (c.reg_file.get_f rs1))) ∧
       (c.cycle_one_full fm).state.map Cpu.b_stat =
         some (c.b_stat.update_stat
           (c.branch_predictor.predict (wrap32 (c.pc + 4)))
           (v_cond fm vi (c.reg_file.get_f rs1))) ∧
       (c.cycle_one_full fm).state.map Cpu.pc =
         some (if v_cond fm vi (c.reg_file.get_f rs1)
               then wrap32 (c.pc + imm) else wrap32 (c.pc + 4))) ∧
    (∀ (c : Cpu) (pi rs1 imm imm2 old_pc : Nat),
       (exec_p_2nd c pi rs1 imm imm2 old_pc).2.branch_predictor =
         c.branch_predictor.update_state c.pc (p_cond pi rs1 imm2) ∧
       (exec_p_2nd c pi rs1 imm imm2 old_pc).2.b_stat =
         c.b_stat.update_stat (c.branch_predictor.predict c.pc)
           (p_cond pi rs1 imm2)) := by
  refine ⟨?_, ?_, ?_, ?_⟩
  · intro c fm bin bi rs1 rs2 imm h1 h2
    cases hcond : b_cond bi (c.reg_file.get rs1) (c.reg_file.get rs2) <;>
      simp [Cpu.cycle_one_full, Cpu.cycle_tail, h1, h2, Cpu.reg_fetch, Cpu.execute,
        Cpu.branch_update, ExecuteOutput.dflt, Cpu.write_back, hcond,
        CpuOutcome.is_ok_continue, CpuOutcome.state]
  · intro c fm bin wi rs1 rs2 imm h1 h2
    cases hcond : w_cond fm wi (c.reg_file.get_f rs1) (c.reg_file.get_f rs2) <;>
      simp [Cpu.cycle_one_full, Cpu.cycle_tail, h1, h2, Cpu.reg_fetch, Cpu.execute,
        Cpu.branch_update, ExecuteOutput.dflt, Cpu.write_back, hcond,
        CpuOutcome.is_ok_continue, CpuOutcome.state]
  · intro c fm bin vi rs1 imm h1 h2
    cases hcond : v_cond fm vi (c.reg_file.get_f rs1) <;>
      simp [Cpu.cycle_one_full, Cpu.cycle_tail, h1, h2, Cpu.reg_fetch, Cpu.execute,
        Cpu.branch_update, ExecuteOutput.dflt, Cpu.write_back, hcond,
        CpuOutcome.is_ok_continue, CpuOutcome.state]
  · intro c pi rs1 imm imm2 old_pc
    constructor <;> simp [exec_p_2nd, Cpu.branch_update]

/-! ## Claim C7 — fatal-error latching -/

/-- C7: when `cycle_one_full` returns a runtime error, `single_cycle`
latches it in `fatal_error` and breaks with `Failed` (conjuncts 3–4:
at any iteration, and at the entry iteration of every mode); once the
latch is set, every call immediately breaks with `CannotRestart`
without running the CPU, returning the *same* simulator state
(conjuncts 1–2; `break_sim` only gathers the watched values, panicking
when a watched read fails, and never modifies the state). -/
theorem c7_fatal_error_latch :
    (∀ (sim : Simulator) (fm : FloatModel) (opt : SimulationOption)
       (fuel : Nat) (e : RuntimeError),
       sim.fatal_error = some e →
       sim.single_cycle fm opt fuel = sim.break_sim opt SimBreakReason.CannotRestart) ∧
    (∀ (sim : Simulator) (opt : SimulationOption) (r : SimBreakReason),
       sim.break_sim opt r = SimOutcome.panicked ∨
       ∃ w, sim.break_sim opt r = SimOutcome.returned (SimFlow.Break w r) sim) ∧
    (∀ (sim : Simulator) (fm : FloatModel) (opt : SimulationOption)
       (is_enter : Bool) (e : RuntimeError) (c' : Cpu),
       (is_enter = false → opt.breakpoints.contains sim.cpu.pc = false) →
       sim.cpu.cycle_one_full fm = CpuOutcome.error e c' →
       sim.exec_once fm opt is_enter = StepRes.ret
         (Simulator.break_sim { sim with cpu := c', fatal_error := some e }
           opt SimBreakReason.Failed)) ∧
    (∀ (sim : Simulator) (fm : FloatModel) (opt : SimulationOption)
       (fuel : Nat) (e : RuntimeError) (c' : Cpu),
       sim.fatal_error = none →
       sim.cpu.cycle_one_full fm = CpuOutcome.error e c' →
       ((opt.mode = ExecuteMode.Run ∨ (∃ p, opt.mode = ExecuteMode.SkipUntil p)) →
          1 ≤ fuel →
          sim.single_cycle fm opt fuel = Simulator.break_sim
            { sim with cpu := c', fatal_error := some e } opt SimBreakReason.Failed) ∧
       (∀ st, opt.mode = ExecuteMode.RunStep st → 1 ≤ st.getD 1 →
          sim.single_cycle fm opt fuel = Simulator.break_sim
            { sim with cpu := c', fatal_error := some e } opt SimBreakReason.Failed)) := by
  have hexec : ∀ (sim : Simulator) (fm : FloatModel) (opt : SimulationOption)
      (e : RuntimeError) (c' : Cpu),
      sim.cpu.cycle_one_full fm = CpuOutcome.error e c' →
      sim.exec_once fm opt true = StepRes.ret
        (Simulator.break_sim { sim with cpu := c', fatal_error := some e }
          opt SimBreakReason.Failed) := by
    intro sim fm opt e c' hc
    simp [Simulator.exec_once, hc]
  refine ⟨?_, ?_, ?_, ?_⟩
  · intro sim fm opt fuel e h
    simp [Simulator.single_cycle, h]
  · intro sim opt r
    rcases hg : sim.gather_watchings opt.watchings with _ | w
    · left
      simp [Simulator.break_sim, hg]
    · right
      exact ⟨w, by simp [Simulator.break_sim, hg]⟩
  · intro sim fm opt is_enter e c' hbp hc
    cases is_enter
    · have hbp' : ¬ (sim.cpu.pc ∈ opt.breakpoints) := by simpa using hbp rfl
      simp [Simulator.exec_once, hc, hbp']
    · exact hexec sim fm opt e c' hc
  · intro sim fm opt fuel e c' hf hc
    constructor
    · intro hmode hfuel
      obtain ⟨n, rfl⟩ : ∃ n, fuel = n + 1 := ⟨fuel - 1, by omega⟩
      rcases hmode with hm | ⟨p, hm⟩ <;>
        simp [Simulator.single_cycle, hf, hm, run_loop, skip_loop,
          hexec sim fm opt e c' hc]
    · intro st hm hst
      obtain ⟨k, hk⟩ : ∃ k, st.getD 1 = k + 1 := ⟨st.getD 1 - 1, by omega⟩
      simp [Simulator.single_cycle, hf, hm, hk, step_loop,
        hexec sim fm opt e c' hc]

/-! ## Claim C10 — failing watched reads panic on every break

The watch-read bounds check depends only on the instruction range,
which no memory operation modifies; the following chain of invariance
lemmas carries that fact through a whole CPU tick. -/

theorem bounds_fail_congr (m m' : Memory) (a : Nat)
    (h1 : m'.instr_begin = m.instr_begin) (h2 : m'.instr_end = m.instr_end) :
    m'.bounds_fail a = m.bounds_fail a := by
  unfold Memory.bounds_fail
  rw [h1, h2]

theorem unify_instr_inv (m : Memory) (a : Nat) (t ty : Ty) (m' : Memory)
    (h : m.unify a t = Except.ok (ty, m')) :
    m'.instr_begin = m.instr_begin ∧ m'.instr_end = m.instr_end := by
  simp only [Memory.unify] at h
  split at h
  · cases h
    exact ⟨rfl, rfl⟩
  · split at h
    · cases h
      exact ⟨rfl, rfl⟩
    · simp at h

theorem set_instr_inv (m : Memory) (a v : Nat) (sp sp' : Option SpyResult)
    (m' : Memory) (h : m.set a v sp = Except.ok (m', sp')) :
    m'.instr_begin = m.instr_begin ∧ m'.instr_end = m.instr_end := by
  unfold Memory.set at h
  split at h
  · simp at h
  · cases h
    exact ⟨rfl, rfl⟩

theorem set_f_instr_inv (m : Memory) (a v : Nat) (sp sp' : Option SpyResult)
    (m' : Memory) (h : m.set_f a v sp = Except.ok (m', sp')) :
    m'.instr_begin = m.instr_begin ∧ m'.instr_end = m.instr_end := by
  unfold Memory.set_f at h
  split at h
  · simp at h
  · cases h
    exact ⟨rfl, rfl⟩

theorem get_i_instr_inv (m : Memory) (a : Nat) (sp sp' : Option SpyResult)
    (v : TypedU32) (m' : Memory) (h : m.get_i a sp = Except.ok (v, m', sp')) :
    m'.instr_begin = m.instr_begin ∧ m'.instr_end = m.instr_end := by
  unfold Memory.get_i at h
  split at h
  · simp at h
  · rcases hu : m.unify a Ty.I32OrUsize with e | p
    · rw [hu] at h
      simp at h
    · rw [hu] at h
      obtain ⟨t2, m2⟩ := p
      simp only [Except.ok.injEq, Prod.mk.injEq] at h
      obtain ⟨_, hm, _⟩ := h
      subst hm
      exact unify_instr_inv m a Ty.I32OrUsize t2 m2 hu

theorem get_f_instr_inv (m : Memory) (a : Nat) (sp sp' : Option SpyResult)
    (v : Nat) (m' : Memory) (h : m.get_f a sp = Except.ok (v, m', sp')) :
    m'.instr_begin = m.instr_begin ∧ m'.instr_end = m.instr_end := by
  unfold Memory.get_f at h
  split at h
  · simp at h
  · rcases hu : m.unify a Ty.F32 with e | p
    · rw [hu] at h
      simp at h
    · rw [hu] at h
      obtain ⟨t2, m2⟩ := p
      simp only [Except.ok.injEq, Prod.mk.injEq] at h
      obtain ⟨_, hm, _⟩ := h
      subst hm
      exact unify_instr_inv m a Ty.F32 t2 m2 hu

theorem execute_memory_eq (c : Cpu) (fm : FloatModel) (i : Instr)
    (old_pc pc_plus4 : Nat) (out : ExecuteOutput) (c2 : Cpu)
    (h : c.execute fm i old_pc pc_plus4 = Except.ok (out, c2)) :
    c2.memory = c.memory := by
  cases i with
  | R ri rd rs1 rs2 =>
    simp only [Cpu.execute, Except.ok.injEq, Prod.mk.injEq] at h
    rw [← h.2]
  | I ii rd rs1 imm =>
    cases ii <;>
      (simp only [Cpu.execute, Except.ok.injEq, Prod.mk.injEq] at h; rw [← h.2])
  | S si rs1 rs2 imm =>
    cases si
    simp only [Cpu.execute, Except.ok.injEq, Prod.mk.injEq] at h
    rw [← h.2]
  | B bi rs1 rs2 imm =>
    simp only [Cpu.execute, Cpu.branch_update, Except.ok.injEq, Prod.mk.injEq] at h
    rw [← h.2]
  | J ji rd imm =>
    cases ji
    simp only [Cpu.execute, Except.ok.injEq, Prod.mk.injEq] at h
    rw [← h.2]
  | Io io =>
    cases io with
    | Outb rs =>
      simp only [Cpu.execute, Except.ok.injEq, Prod.mk.injEq] at h
      rw [← h.2]
    | Inw rd =>
      rcases hio : c.io.inw with e | p
      · simp only [Cpu.execute, hio] at h
        simp at h
      · obtain ⟨val, io2⟩ := p
        simp only [Cpu.execute, hio, Except.ok.injEq, Prod.mk.injEq] at h
        rw [← h.2]
    | Finw rd =>
      rcases hio : c.io.finw with e | p
      · simp only [Cpu.execute, hio] at h
        simp at h
      · obtain ⟨val, io2⟩ := p
        simp only [Cpu.execute, hio, Except.ok.injEq, Prod.mk.injEq] at h
        rw [← h.2]
  | F f =>
    cases f with
    | E ei rd rs1 rs2 =>
      simp only [Cpu.execute, Except.ok.injEq, Prod.mk.injEq] at h
      rw [← h.2]
    | H hi rd rs1 =>
      simp only [Cpu.execute, Except.ok.injEq, Prod.mk.injEq] at h
      rw [← h.2]
    | K ki rd rs1 rs2 =>
      cases ki
      simp only [Cpu.execute, Except.ok.injEq, Prod.mk.injEq] at h
      rw [← h.2]
    | X xi rd rs1 =>
      cases xi
      simp only [Cpu.execute, Except.ok.injEq, Prod.mk.injEq] at h
      rw [← h.2]
    | Y yi rd rs1 =>
      simp only [Cpu.execute, Except.ok.injEq, Prod.mk.injEq] at h
      rw [← h.2]
    | W wi rs1 rs2 imm =>
      simp only [Cpu.execute, Cpu.branch_update, Except.ok.injEq, Prod.mk.injEq] at h
      rw [← h.2]
    | V vi rs1 imm =>
      simp only [Cpu.execute, Cpu.branch_update, Except.ok.injEq, Prod.mk.injEq] at h
      rw [← h.2]
    | Flw rd rs1 imm =>
      simp only [Cpu.execute, Except.ok.injEq, Prod.mk.injEq] at h
      rw [← h.2]
    | Fsw rs1 rs2 imm =>
      simp only [Cpu.execute, Except.ok.injEq, Prod.mk.injEq] at h
      rw [← h.2]
  | Misc =>
    simp only [Cpu.execute, Except.ok.injEq, Prod.mk.injEq] at h
    rw [← h.2]

theorem memory_access_instr_inv (c : Cpu) (ma : MemoryAccessInput)
    (sp : Option SpyResult) :
    (∀ out c' sp', c.memory_access ma sp = MaRes.ok out c' sp' →
       c'.memory.instr_begin = c.memory.instr_begin ∧
       c'.memory.instr_end = c.memory.instr_end) ∧
    (∀ e c', c.memory_access ma sp = MaRes.error e c' →
       c'.memory.instr_begin = c.memory.instr_begin ∧
       c'.memory.instr_end = c.memory.instr_end) := by
  cases ma with
  | I addr val =>
    constructor
    · intro out c' sp' h
      simp only [Cpu.memory_access] at h
      rcases hac : c.cache.access_cache addr with ⟨hit, cache⟩
      rw [hac] at h
      rcases hs : Memory.set c.memory addr val sp with e | ⟨m2, sp2⟩
      · rw [hs] at h
        simp at h
      · rw [hs] at h
        simp only [MaRes.ok.injEq] at h
        obtain ⟨h1, h2, h3⟩ := h
        subst h2
        exact set_instr_inv c.memory addr val sp sp2 m2 hs
    · intro e c' h
      simp only [Cpu.memory_access] at h
      rcases hac : c.cache.access_cache addr with ⟨hit, cache⟩
      rw [hac] at h
      rcases hs : Memory.set c.memory addr val sp with e2 | ⟨m2, sp2⟩
      · rw [hs] at h
        simp only [MaRes.error.injEq] at h
        obtain ⟨h1, h2⟩ := h
        subst h2
        exact ⟨rfl, rfl⟩
      · rw [hs] at h
        simp at h
  | F addr val =>
    constructor
    · intro out c' sp' h
      simp only [Cpu.memory_access] at h
      rcases hac : c.cache.access_cache addr with ⟨hit, cache⟩
      rw [hac] at h
      rcases hs : Memory.set_f c.memory addr val sp with e | ⟨m2, sp2⟩
      · rw [hs] at h
        simp at h
      · rw [hs] at h
        simp only [MaRes.ok.injEq] at h
        obtain ⟨h1, h2, h3⟩ := h
        subst h2
        exact set_f_instr_inv c.memory addr val sp sp2 m2 hs
    · intro e c' h
      simp only [Cpu.memory_access] at h
      rcases hac : c.cache.access_cache addr with ⟨hit, cache⟩
      rw [hac] at h
      rcases hs : Memory.set_f c.memory addr val sp with e2 | ⟨m2, sp2⟩
      · rw [hs] at h
        simp only [MaRes.error.injEq] at h
        obtain ⟨h1, h2⟩ := h
        subst h2
        exact ⟨rfl, rfl⟩
      · rw [hs] at h
        simp at h
  | IMem id addr =>
    constructor
    · intro out c' sp' h
      simp only [Cpu.memory_access] at h
      rcases hac : c.cache.access_cache addr with ⟨hit, cache⟩
      rw [hac] at h
      rcases hs : Memory.get_i c.memory addr sp with e | ⟨v2, m2, sp2⟩
      · rw [hs] at h
        simp at h
      · rw [hs] at h
        simp only [MaRes.ok.injEq] at h
        obtain ⟨h1, h2, h3⟩ := h
        subst h2
        exact get_i_instr_inv c.memory addr sp sp2 v2 m2 hs
    · intro e c' h
      simp only [Cpu.memory_access] at h
      rcases hac : c.cache.access_cache addr with ⟨hit, cache⟩
      rw [hac] at h
      rcases hs : Memory.get_i c.memory addr sp with e2 | ⟨v2, m2, sp2⟩
      · rw [hs] at h
        simp only [MaRes.error.injEq] at h
        obtain ⟨h1, h2⟩ := h
        subst h2
        exact ⟨rfl, rfl⟩
      · rw [hs] at h
        simp at h
  | FMem id addr =>
    constructor
    · intro out c' sp' h
      simp only [Cpu.memory_access] at h
      rcases hac : c.cache.access_cache addr with ⟨hit, cache⟩
      rw [hac] at h
      rcases hs : Memory.get_f c.memory addr sp with e | ⟨v2, m2, sp2⟩
      · rw [hs] at h
        simp at h
      · rw [hs] at h
        simp only [MaRes.ok.injEq] at h
        obtain ⟨h1, h2, h3⟩ := h
        subst h2
        exact get_f_instr_inv c.memory addr sp sp2 v2 m2 hs
    · intro e c' h
      simp only [Cpu.memory_access] at h
      rcases hac : c.cache.access_cache addr with ⟨hit, cache⟩
      rw [hac] at h
      rcases hs : Memory.get_f c.memory addr sp with e2 | ⟨v2, m2, sp2⟩
      · rw [hs] at h
        simp only [MaRes.error.injEq] at h
        obtain ⟨h1, h2⟩ := h
        subst h2
        exact ⟨rfl, rfl⟩
      · rw [hs] at h
        simp at h

theorem write_back_memory_eq (c : Cpu) (w : Option WriteBackInput) :
    (c.write_back w).memory = c.memory := by
  rcases w with _ | w
  · rfl
  · cases w <;> rfl

theorem cycle_tail_instr_inv (c : Cpu) (exOut : ExecuteOutput) (st : Cpu)
    (h : (c.cycle_tail exOut).state = some st) :
    st.memory.instr_begin = c.memory.instr_begin ∧
    st.memory.instr_end = c.memory.instr_end := by
  unfold Cpu.cycle_tail at h
  split at h
  · simp only [CpuOutcome.state, Option.some.injEq] at h
    subst h
    exact ⟨rfl, rfl⟩
  · rcases hnp : exOut.new_pc with _ | v <;> simp only [hnp] at h <;>
      rcases hma : exOut.ma_in with _ | ma <;> simp only [hma] at h
    · simp only [CpuOutcome.state, Option.some.injEq] at h
      subst h
      rw [write_back_memory_eq]
      exact ⟨rfl, rfl⟩
    · rcases hmr : c.memory_access ma none with ⟨out, cm, spied⟩ | ⟨e, cm⟩ <;>
        rw [hmr] at h
      · have hinv := (memory_access_instr_inv c ma none).1 out cm spied hmr
        rcases spied with _ | sp <;>
          simp only [CpuOutcome.state, Option.some.injEq] at h <;>
          subst h <;> rw [write_back_memory_eq] <;> exact hinv
      · simp only [CpuOutcome.state, Option.some.injEq] at h
        subst h
        exact (memory_access_instr_inv c ma none).2 e cm hmr
    · simp only [CpuOutcome.state, Option.some.injEq] at h
      subst h
      rw [write_back_memory_eq]
      exact ⟨rfl, rfl⟩
    · rcases hmr : Cpu.memory_access { c with pc := v } ma none with
        ⟨out, cm, spied⟩ | ⟨e, cm⟩ <;> rw [hmr] at h
      · have hinv := (memory_access_instr_inv { c with pc := v } ma none).1
          out cm spied hmr
        rcases spied with _ | sp <;>
          simp only [CpuOutcome.state, Option.some.injEq] at h <;>
          subst h <;> rw [write_back_memory_eq] <;> exact hinv
      · simp only [CpuOutcome.state, Option.some.injEq] at h
        subst h
        exact (memory_access_instr_inv { c with pc := v } ma none).2 e cm hmr

theorem cycle_instr_inv (c : Cpu) (fm : FloatModel) (st : Cpu)
    (h : (c.cycle_one_full fm).state = some st) :
    st.memory.instr_begin = c.memory.instr_begin ∧
    st.memory.instr_end = c.memory.instr_end := by
  rcases hf : c.memory.get_from_pc c.pc with e | bin
  · simp only [Cpu.cycle_one_full, hf, CpuOutcome.state, Option.some.injEq] at h
    subst h
    exact ⟨rfl, rfl⟩
  · simp only [Cpu.cycle_one_full, hf] at h
    cases hd : decode_from bin with
    | panicked =>
      simp only [hd, CpuOutcome.state] at h
      exact absurd h (by simp)
    | invalid b2 =>
      simp only [hd, CpuOutcome.state, Option.some.injEq] at h
      subst h
      exact ⟨rfl, rfl⟩
    | ok i =>
      simp only [hd] at h
      split at h
      · simp only [CpuOutcome.state, Option.some.injEq] at h
        subst h
        exact ⟨rfl, rfl⟩
      · next exOut c2 heq =>
        have hmem : c2.memory = c.memory :=
          execute_memory_eq { c with pc := wrap32 (c.pc + 4) } fm _ _ _ exOut c2 heq
        have := cycle_tail_instr_inv c2 exOut st h
        rw [hmem] at this
        exact this

theorem gather_mem_none (m : Memory) (a : Nat) (l : List Nat)
    (ha : a ∈ l) (hb : m.bounds_fail a = true) : gather_mem m l = none := by
  induction l with
  | nil => cases ha
  | cons x xs ih =>
    by_cases hx : x = a
    · subst hx
      simp [gather_mem, Memory.get, hb]
    · have ha' : a ∈ xs := by
        rcases List.mem_cons.mp ha with h | h
        · exact absurd h.symm hx
        · exact h
      unfold gather_mem
      rcases hg : m.get x none with e | ⟨v, m2, sp2⟩
      · rfl
      · rw [ih ha']

theorem break_sim_panics (sim : Simulator) (opt : SimulationOption)
    (r : SimBreakReason) (a : Nat) (ha : a ∈ opt.watchings.memory)
    (hb : sim.cpu.memory.bounds_fail a = true) :
    sim.break_sim opt r = SimOutcome.panicked := by
  unfold Simulator.break_sim Simulator.gather_watchings
  rw [gather_mem_none _ a _ ha hb]

theorem exec_once_bad_watch (sim : Simulator) (fm : FloatModel)
    (opt : SimulationOption) (is_enter : Bool) (a : Nat)
    (ha : a ∈ opt.watchings.memory)
    (hb : sim.cpu.memory.bounds_fail a = true) :
    sim.exec_once fm opt is_enter = StepRes.ret SimOutcome.panicked ∨
    (∃ s', sim.exec_once fm opt is_enter =
       StepRes.ret (SimOutcome.returned SimFlow.Exit s')) ∨
    (∃ s', sim.exec_once fm opt is_enter = StepRes.cont s' ∧
       s'.cpu.memory.bounds_fail a = true) := by
  unfold Simulator.exec_once
  split
  · left
    rw [break_sim_panics sim opt _ a ha hb]
  · cases hc : sim.cpu.cycle_one_full fm with
    | panicked => left; rfl
    | error e c' =>
      have hpres := cycle_instr_inv sim.cpu fm c' (by rw [hc]; rfl)
      have hb' : c'.memory.bounds_fail a = true := by
        rw [bounds_fail_congr sim.cpu.memory c'.memory a hpres.1 hpres.2]
        exact hb
      left
      exact congrArg StepRes.ret (break_sim_panics
        { sim with cpu := c', fatal_error := some e }
        opt SimBreakReason.Failed a ha hb')
    | ok flow c' =>
      have hpres := cycle_instr_inv sim.cpu fm c' (by rw [hc]; rfl)
      have hb' : c'.memory.bounds_fail a = true := by
        rw [bounds_fail_congr sim.cpu.memory c'.memory a hpres.1 hpres.2]
        exact hb
      cases flow with
      | Continue =>
        right; right
        exact ⟨{ sim with cpu := c', cycle := sim.cycle + 1 }, rfl, hb'⟩
      | BreakSpy sp =>
        left
        exact congrArg StepRes.ret (break_sim_panics
          { sim with cpu := c', cycle := sim.cycle + 1 }
          opt (SimBreakReason.Spy sp) a ha hb')
      | Exit =>
        right; left
        exact ⟨{ sim with cpu := c', cycle := sim.cycle + 1 }, rfl⟩

theorem run_loop_bad_watch (fm : FloatModel) (opt : SimulationOption) (a : Nat)
    (ha : a ∈ opt.watchings.memory) :
    ∀ (fuel : Nat) (sim : Simulator) (is_enter : Bool),
      sim.cpu.memory.bounds_fail a = true →
      run_loop fm opt fuel sim is_enter = SimOutcome.panicked ∨
      (∃ s', run_loop fm opt fuel sim is_enter =
         SimOutcome.returned SimFlow.Exit s') ∨
      run_loop fm opt fuel sim is_enter = SimOutcome.no_fuel := by
  intro fuel
  induction fuel with
  | zero =>
    intro sim is_enter hb
    right; right
    rfl
  | succ n ih =>
    intro sim is_enter hb
    rcases exec_once_bad_watch sim fm opt is_enter a ha hb with h | ⟨s', h⟩ | ⟨s', h, hb'⟩
    · left
      simp [run_loop, h]
    · right; left
      exact ⟨s', by simp [run_loop, h]⟩
    · simpa [run_loop, h] using ih s' false hb'

theorem skip_loop_bad_watch (fm : FloatModel) (opt : SimulationOption)
    (p a : Nat) (ha : a ∈ opt.watchings.memory) :
    ∀ (fuel : Nat) (sim : Simulator) (is_enter : Bool),
      sim.cpu.memory.bounds_fail a = true →
      skip_loop fm opt p fuel sim is_enter = SimOutcome.panicked ∨
      (∃ s', skip_loop fm opt p fuel sim is_enter =
         SimOutcome.returned SimFlow.Exit s') ∨
      skip_loop fm opt p fuel sim is_enter = SimOutcome.no_fuel := by
  intro fuel
  induction fuel with
  | zero =>
    intro sim is_enter hb
    right; right
    rfl
  | succ n ih =>
    intro sim is_enter hb
    unfold skip_loop
    split
    · left
      exact break_sim_panics sim opt (SimBreakReason.Reached p) a ha hb
    · rcases exec_once_bad_watch sim fm opt is_enter a ha hb with h | ⟨s', h⟩ | ⟨s', h, hb'⟩
      · left
        simp [h]
      · right; left
        exact ⟨s', by simp [h]⟩
      · simpa [h] using ih s' false hb'

theorem step_loop_bad_watch (fm : FloatModel) (opt : SimulationOption) (a : Nat)
    (ha : a ∈ opt.watchings.memory) :
    ∀ (n : Nat) (sim : Simulator) (is_enter : Bool),
      sim.cpu.memory.bounds_fail a = true →
      step_loop fm opt n sim is_enter = SimOutcome.panicked ∨
      (∃ s', step_loop fm opt n sim is_enter =
         SimOutcome.returned SimFlow.Exit s') ∨
      step_loop fm opt n sim is_enter = SimOutcome.no_fuel := by
  intro n
  induction n with
  | zero =>
    intro sim is_enter hb
    left
    exact break_sim_panics sim opt SimBreakReason.StepEnded a ha hb
  | succ n ih =>
    intro sim is_enter hb
    rcases exec_once_bad_watch sim fm opt is_enter a ha hb with h | ⟨s', h⟩ | ⟨s', h, hb'⟩
    · left
      simp [step_loop, h]
    · right; left
      exact ⟨s', by simp [step_loop, h]⟩
    · simpa [step_loop, h] using ih s' false hb'

/-- C10: if the watch list contains a word address whose read fails
(outside RAM or inside the instruction region — exactly the
`bounds_fail` condition), then `single_cycle` can never return a
`Break` of any reason: every break path goes through
`gather_watchings`, whose `unwrap` of the failed read panics.  The
only non-panicking outcomes are a program `Exit` (which skips the
watch gathering) and the model's fuel exhaustion. -/
theorem c10_failing_watch_panics (sim : Simulator) (fm : FloatModel)
    (opt : SimulationOption) (fuel a : Nat)
    (ha : a ∈ opt.watchings.memory)
    (hb : sim.cpu.memory.bounds_fail a = true) :
    sim.single_cycle fm opt fuel = SimOutcome.panicked ∨
    (∃ s', sim.single_cycle fm opt fuel = SimOutcome.returned SimFlow.Exit s') ∨
    sim.single_cycle fm opt fuel = SimOutcome.no_fuel := by
  unfold Simulator.single_cycle
  split
  · left
    exact break_sim_panics sim opt SimBreakReason.CannotRestart a ha hb
  · rcases hmode : opt.mode with _ | p | st
    · exact run_loop_bad_watch fm opt a ha fuel sim true hb
    · exact skip_loop_bad_watch fm opt p a ha fuel sim true hb
    · exact step_loop_bad_watch fm opt a ha (st.getD 1) sim true hb

/-- A concrete CPU and simulator (fresh register file, `test_mem`,
empty I/O) used by witnesses. -/
def test_cpu : Cpu :=
  { reg_file := { inner := fun _ => 0, inner_f := fun _ => 0 },
    memory := test_mem, cache := Cache.new, pc := 8,
    io := { input := [], output := [] },
    branch_predictor := BranchPredictor.new,
    b_stat := { taken_pred_taken_count := 0, taken_pred_untaken_count := 0,
                untaken_pred_taken_count := 0, untaken_pred_untaken_count := 0 },
    c_stat := { hit_count := 0, miss_count := 0 } }

def test_sim : Simulator :=
  { cpu := test_cpu, cycle := 0, fatal_error := none }

/-- Options with a watched word address 250,000 (byte offset 1,000,000,
at the RAM size, so the watch read fails). -/
def test_opt : SimulationOption :=
  { mode := ExecuteMode.RunStep (some 0), breakpoints := [],
    watchings := { reg := [], freg := [], memory := [250000] } }

/-- C10 witness: a concrete simulator with the failing watched address
250,000 under `RunStep`. -/
theorem c10_witness :
    Simulator.single_cycle test_sim FloatModel.triv test_opt 1 = SimOutcome.panicked ∨
    (∃ s', Simulator.single_cycle test_sim FloatModel.triv test_opt 1 =
       SimOutcome.returned SimFlow.Exit s') ∨
    Simulator.single_cycle test_sim FloatModel.triv test_opt 1 = SimOutcome.no_fuel :=
  c10_failing_watch_panics test_sim FloatModel.triv test_opt 1 250000
    (by decide) (by decide)

end CoreSim
